import Mathlib

set_option autoImplicit false

/-- Go strings, embedded as their character sequences. -/
abbrev Str := List Char

namespace GoStrings

/-- Go `strings.HasPrefix`. -/
def hasPrefix (s pre : Str) : Bool :=
  match pre, s with
  | [], _ => true
  | _ :: _, [] => false
  | p :: ps, c :: cs => p = c && hasPrefix cs ps

/-- Go `strings.TrimPrefix`: drops `pre` when `s` starts with it, else `s`. -/
def trimPrefix (s pre : Str) : Str :=
  if hasPrefix s pre then s.drop pre.length else s

/-- Go `strings.HasSuffix`. -/
def hasSuffix (s suf : Str) : Bool :=
  hasPrefix s.reverse suf.reverse

/-- Go `strings.TrimSuffix`: drops `suf` when `s` ends with it, else `s`. -/
def trimSuffix (s suf : Str) : Str :=
  if hasSuffix s suf then s.take (s.length - suf.length) else s

/-- Go `strings.Split(s, "/")`: the (never empty) list of `/`-separated
segments of `s`. -/
def splitOnSlash : Str → List Str
  | [] => [[]]
  | c :: rest =>
    match splitOnSlash rest with
    | [] => if c = '/' then [[], []] else [[c]]
    | s :: ss => if c = '/' then [] :: s :: ss else (c :: s) :: ss

/-- Joining segments with `/`, the inverse of `splitOnSlash`. -/
def joinSegs : List Str → Str
  | [] => []
  | [s] => s
  | s :: rest => s ++ '/' :: joinSegs rest

end GoStrings

open GoStrings

namespace parse

/-!
## Resource IDs

The repository's `parse` package (generated resource-ID formatters and
parsers) is not part of the excerpt; only its callers are. The definitions
here are modelled from the spec's description of "resource-ID
parsing/normalization" and "consistent ID-based addressing": an ID is the
`/`-join of a fixed interleaving of literal segments and nonempty value
segments, and the parser validates each literal segment and extracts each
value segment, rejecting empty values.
-/

/-- One segment of a resource-ID pattern: a fixed literal, or a value slot. -/
inductive SegPat
  | lit (s : Str)
  | val
deriving DecidableEq

/-- Modelled from the spec: the segment-validating core of the generated ID
parsers (missing from the excerpt). Matches segments against the pattern,
requiring literal segments verbatim and value segments nonempty. -/
def matchSegs : List SegPat → List Str → Option (List Str)
  | [], [] => some []
  | .lit s :: ps, x :: xs => if x = s then matchSegs ps xs else none
  | .val :: ps, x :: xs => if x = [] then none else (matchSegs ps xs).map (x :: ·)
  | _, _ => none

/-- Modelled from the spec: the formatter core of the generated `ID()`
functions (missing from the excerpt). Plugs the values into the pattern. -/
def fillSegs : List SegPat → List Str → List Str
  | [], _ => []
  | .lit s :: ps, vs => s :: fillSegs ps vs
  | .val :: ps, v :: vs => v :: fillSegs ps vs
  | .val :: _, [] => []

/-- The number of value slots of a pattern. -/
def numVals : List SegPat → Nat
  | [] => 0
  | .lit _ :: ps => numVals ps
  | .val :: ps => numVals ps + 1

set_option linter.dupNamespace false in
/-- Modelled from the spec: the ServiceBus Subscription resource ID
(missing `parse.SubscriptionId` type). -/
structure SubscriptionId where
  SubscriptionId : Str
  ResourceGroup : Str
  NamespaceName : Str
  TopicName : Str
  Name : Str
deriving DecidableEq, Repr

def subscriptionIdPattern : List SegPat :=
  [.lit [], .lit "subscriptions".toList, .val, .lit "resourceGroups".toList, .val,
   .lit "providers".toList, .lit "Microsoft.ServiceBus".toList,
   .lit "namespaces".toList, .val, .lit "topics".toList, .val,
   .lit "subscriptions".toList, .val]

/-- Modelled from the spec: `parse.NewSubscriptionID`. -/
def NewSubscriptionID (sub rg ns topic name : Str) : SubscriptionId :=
  ⟨sub, rg, ns, topic, name⟩

/-- Modelled from the spec: `SubscriptionId.ID()`, the ID formatter. -/
def SubscriptionId.ID (id : parse.SubscriptionId) : Str :=
  joinSegs (fillSegs subscriptionIdPattern
    [id.SubscriptionId, id.ResourceGroup, id.NamespaceName, id.TopicName, id.Name])

/-- Modelled from the spec: `parse.SubscriptionID`, the ID parser used by
Read and Delete. -/
def SubscriptionID (input : Str) : Except Str SubscriptionId :=
  match matchSegs subscriptionIdPattern (splitOnSlash input) with
  | some [sub, rg, ns, topic, name] => .ok ⟨sub, rg, ns, topic, name⟩
  | _ => .error ("parsing Subscription ID".toList ++ input)

/-- Modelled from the spec: the ServiceBus Namespace Authorization Rule
resource ID (missing `parse.NamespaceAuthorizationRuleId` type). -/
structure NamespaceAuthorizationRuleId where
  SubscriptionId : Str
  ResourceGroup : Str
  NamespaceName : Str
  AuthorizationRuleName : Str
deriving DecidableEq, Repr

def namespaceAuthorizationRuleIdPattern : List SegPat :=
  [.lit [], .lit "subscriptions".toList, .val, .lit "resourceGroups".toList, .val,
   .lit "providers".toList, .lit "Microsoft.ServiceBus".toList,
   .lit "namespaces".toList, .val, .lit "authorizationRules".toList, .val]

/-- Modelled from the spec: `parse.NewNamespaceAuthorizationRuleID`. -/
def NewNamespaceAuthorizationRuleID (sub rg ns name : Str) : NamespaceAuthorizationRuleId :=
  ⟨sub, rg, ns, name⟩

/-- Modelled from the spec: `NamespaceAuthorizationRuleId.ID()`. -/
def NamespaceAuthorizationRuleId.ID (id : NamespaceAuthorizationRuleId) : Str :=
  joinSegs (fillSegs namespaceAuthorizationRuleIdPattern
    [id.SubscriptionId, id.ResourceGroup, id.NamespaceName, id.AuthorizationRuleName])

/-- Modelled from the spec: `parse.NamespaceAuthorizationRuleID`, the parser
used by Read and Delete. -/
def NamespaceAuthorizationRuleID (input : Str) : Except Str NamespaceAuthorizationRuleId :=
  match matchSegs namespaceAuthorizationRuleIdPattern (splitOnSlash input) with
  | some [sub, rg, ns, name] => .ok ⟨sub, rg, ns, name⟩
  | _ => .error ("parsing Namespace Authorization Rule ID".toList ++ input)

/-- Modelled from the spec: the ServiceBus Topic Authorization Rule resource
ID (missing `parse.TopicAuthorizationRuleId` type). -/
structure TopicAuthorizationRuleId where
  SubscriptionId : Str
  ResourceGroup : Str
  NamespaceName : Str
  TopicName : Str
  AuthorizationRuleName : Str
deriving DecidableEq, Repr

def topicAuthorizationRuleIdPattern : List SegPat :=
  [.lit [], .lit "subscriptions".toList, .val, .lit "resourceGroups".toList, .val,
   .lit "providers".toList, .lit "Microsoft.ServiceBus".toList,
   .lit "namespaces".toList, .val, .lit "topics".toList, .val,
   .lit "authorizationRules".toList, .val]

/-- Modelled from the spec: `parse.NewTopicAuthorizationRuleID`. -/
def NewTopicAuthorizationRuleID (sub rg ns topic name : Str) : TopicAuthorizationRuleId :=
  ⟨sub, rg, ns, topic, name⟩

/-- Modelled from the spec: `TopicAuthorizationRuleId.ID()`. -/
def TopicAuthorizationRuleId.ID (id : TopicAuthorizationRuleId) : Str :=
  joinSegs (fillSegs topicAuthorizationRuleIdPattern
    [id.SubscriptionId, id.ResourceGroup, id.NamespaceName, id.TopicName,
     id.AuthorizationRuleName])

/-- Modelled from the spec: `parse.TopicAuthorizationRuleID`, the parser used
by Read and Delete. -/
def TopicAuthorizationRuleID (input : Str) : Except Str TopicAuthorizationRuleId :=
  match matchSegs topicAuthorizationRuleIdPattern (splitOnSlash input) with
  | some [sub, rg, ns, topic, name] => .ok ⟨sub, rg, ns, topic, name⟩
  | _ => .error ("parsing Topic Authorization Rule ID".toList ++ input)

/-- Modelled from the spec: the ServiceBus Topic resource ID (missing
`parse.TopicId` type). -/
structure TopicId where
  SubscriptionId : Str
  ResourceGroup : Str
  NamespaceName : Str
  Name : Str
deriving DecidableEq, Repr

def topicIdPattern : List SegPat :=
  [.lit [], .lit "subscriptions".toList, .val, .lit "resourceGroups".toList, .val,
   .lit "providers".toList, .lit "Microsoft.ServiceBus".toList,
   .lit "namespaces".toList, .val, .lit "topics".toList, .val]

/-- Modelled from the spec: `parse.NewTopicID`. -/
def NewTopicID (sub rg ns name : Str) : TopicId := ⟨sub, rg, ns, name⟩

/-- Modelled from the spec: `TopicId.ID()`. -/
def TopicId.ID (id : TopicId) : Str :=
  joinSegs (fillSegs topicIdPattern
    [id.SubscriptionId, id.ResourceGroup, id.NamespaceName, id.Name])

/-- Modelled from the spec: `parse.TopicID`. -/
def TopicID (input : Str) : Except Str TopicId :=
  match matchSegs topicIdPattern (splitOnSlash input) with
  | some [sub, rg, ns, name] => .ok ⟨sub, rg, ns, name⟩
  | _ => .error ("parsing Topic ID".toList ++ input)

/-- Modelled from the spec: the ServiceBus Namespace resource ID (missing
`parse.NamespaceId` type). -/
structure NamespaceId where
  SubscriptionId : Str
  ResourceGroup : Str
  Name : Str
deriving DecidableEq, Repr

def namespaceIdPattern : List SegPat :=
  [.lit [], .lit "subscriptions".toList, .val, .lit "resourceGroups".toList, .val,
   .lit "providers".toList, .lit "Microsoft.ServiceBus".toList,
   .lit "namespaces".toList, .val]

/-- Modelled from the spec: `parse.NewNamespaceID`. -/
def NewNamespaceID (sub rg name : Str) : NamespaceId := ⟨sub, rg, name⟩

/-- Modelled from the spec: `NamespaceId.ID()`. -/
def NamespaceId.ID (id : NamespaceId) : Str :=
  joinSegs (fillSegs namespaceIdPattern [id.SubscriptionId, id.ResourceGroup, id.Name])

/-- Modelled from the spec: `parse.NamespaceID`. -/
def NamespaceID (input : Str) : Except Str NamespaceId :=
  match matchSegs namespaceIdPattern (splitOnSlash input) with
  | some [sub, rg, name] => .ok ⟨sub, rg, name⟩
  | _ => .error ("parsing Namespace ID".toList ++ input)

/-- Modelled from the spec: the Function App resource ID (missing
`parse.FunctionAppId` type). -/
structure FunctionAppId where
  SubscriptionId : Str
  ResourceGroup : Str
  SiteName : Str
deriving DecidableEq, Repr

def functionAppIdPattern : List SegPat :=
  [.lit [], .lit "subscriptions".toList, .val, .lit "resourceGroups".toList, .val,
   .lit "providers".toList, .lit "Microsoft.Web".toList, .lit "sites".toList, .val]

/-- Modelled from the spec: `parse.NewFunctionAppID`. -/
def NewFunctionAppID (sub rg site : Str) : FunctionAppId := ⟨sub, rg, site⟩

/-- Modelled from the spec: `FunctionAppId.ID()`. -/
def FunctionAppId.ID (id : FunctionAppId) : Str :=
  joinSegs (fillSegs functionAppIdPattern [id.SubscriptionId, id.ResourceGroup, id.SiteName])

/-- Modelled from the spec: `parse.FunctionAppID`, the parser used by Read,
Update and Delete. -/
def FunctionAppID (input : Str) : Except Str FunctionAppId :=
  match matchSegs functionAppIdPattern (splitOnSlash input) with
  | some [sub, rg, site] => .ok ⟨sub, rg, site⟩
  | _ => .error ("parsing Function App ID".toList ++ input)

/-- Modelled from the spec: the Kubernetes (managed) Cluster resource ID
(missing `parse.ClusterId` type). -/
structure ClusterId where
  SubscriptionId : Str
  ResourceGroup : Str
  ManagedClusterName : Str
deriving DecidableEq, Repr

def clusterIdPattern : List SegPat :=
  [.lit [], .lit "subscriptions".toList, .val, .lit "resourceGroups".toList, .val,
   .lit "providers".toList, .lit "Microsoft.ContainerService".toList,
   .lit "managedClusters".toList, .val]

/-- Modelled from the spec: `parse.NewClusterID`. -/
def NewClusterID (sub rg name : Str) : ClusterId := ⟨sub, rg, name⟩

/-- Modelled from the spec: `ClusterId.ID()`. -/
def ClusterId.ID (id : ClusterId) : Str :=
  joinSegs (fillSegs clusterIdPattern [id.SubscriptionId, id.ResourceGroup, id.ManagedClusterName])

/-- Modelled from the spec: the Storage Account resource ID (missing
`commonids.StorageAccountId` type). -/
structure StorageAccountId where
  SubscriptionId : Str
  ResourceGroupName : Str
  StorageAccountName : Str
deriving DecidableEq, Repr

def storageAccountIdPattern : List SegPat :=
  [.lit [], .lit "subscriptions".toList, .val, .lit "resourceGroups".toList, .val,
   .lit "providers".toList, .lit "Microsoft.Storage".toList,
   .lit "storageAccounts".toList, .val]

/-- Modelled from the spec: `commonids.ParseStorageAccountID`. -/
def ParseStorageAccountID (input : Str) : Except Str StorageAccountId :=
  match matchSegs storageAccountIdPattern (splitOnSlash input) with
  | some [sub, rg, name] => .ok ⟨sub, rg, name⟩
  | _ => .error ("parsing Storage Account ID".toList ++ input)

end parse

/-!
## The SDK oracle and handler state

Each Azure SDK call in a handler returns `(value, err)` together with an HTTP
response; handlers branch on `err` and on `utils.ResponseWasNotFound`. A
handler run is embedded as a pure function of an environment record holding
the result each SDK call site would produce on this run. Handlers also emit a
trace of the externally visible actions they perform (SDK calls, `d.SetId`,
`d.Set`), in order.
-/

/-- Shorthand for embedding a Lean string literal as a Go string. -/
def strL (s : String) : Str := s.toList

/-- The part of an autorest HTTP response inspected by the handlers. -/
structure HttpResponse where
  StatusCode : Nat
deriving DecidableEq, Repr

/-- Modelled from the spec: `utils.ResponseWasNotFound` (the `utils` package
is missing from the excerpt) — true when the wrapped HTTP error response has
status 404. -/
def ResponseWasNotFound (r : HttpResponse) : Bool :=
  r.StatusCode == 404

/-- The outcome of one SDK call site, as supplied by the oracle: the HTTP
response, the decoded body, and the `err` value. -/
structure CallResult (α : Type) where
  Response : HttpResponse
  value : α
  err : Option Str
deriving Repr

namespace tf

/-- Modelled from the spec: `tf.ImportAsExistsError` (the `helpers/tf`
package is missing from the excerpt) — the error returned when a resource
about to be created already exists remotely. -/
def ImportAsExistsError (resourceType idStr : Str) : Str :=
  strL "A resource with the ID " ++ idStr ++
    strL " already exists - to be managed via Terraform this resource needs to be imported into the State. Please see the resource documentation for " ++
    resourceType ++ strL " for more information."

end tf

/-- The externally visible actions of one handler run, in order. -/
inductive Act
  | callGet
  | callListKeys
  | callCreateOrUpdate
  | callDelete
  | callWaitReplication
  | callWaitFuture
  | callGetAccessProfile
  | callCheckName
  | callGetEnv
  | callListAppSettings
  | callGetConfiguration
  | callUpdateConfiguration
  | setId (id : Str)
  | setAttr (k : Str)
deriving DecidableEq, Repr

/-- The slice of `pluginsdk.ResourceData` the embedded handlers inspect:
the stored resource ID and the `IsNewResource` flag. -/
structure ResourceData where
  id : Str
  isNew : Bool
deriving DecidableEq, Repr

/-- One handler run: the final `ResourceData`, the ordered action trace, and
the handler's return value (`.ok ()` embeds a `nil` Go error). -/
structure RunResult where
  d : ResourceData
  trace : List Act
  result : Except Str Unit
deriving Repr

namespace servicebus

/-- `servicebus.SBSubscriptionProperties` (the SDK body decoded by the
subscription Get call), restricted to the fields the Read handler copies. -/
structure SBSubscriptionProperties where
  AutoDeleteOnIdle : Option Str
  DefaultMessageTimeToLive : Option Str
  LockDuration : Option Str
  DeadLetteringOnMessageExpiration : Option Bool
  DeadLetteringOnFilterEvaluationExceptions : Option Bool
  EnableBatchedOperations : Option Bool
  RequiresSession : Option Bool
  ForwardTo : Option Str
  ForwardDeadLetteredMessagesTo : Option Str
  Status : Str
  MaxDeliveryCount : Option Int
deriving Repr

/-- Oracle for `resourceServiceBusSubscriptionRead`: the result of the
`client.Get` call, plus the `features.ThreePointOhBeta()` flag. -/
structure SubscriptionReadEnv where
  get : CallResult (Option SBSubscriptionProperties)
  threePointOhBeta : Bool
deriving Repr

/-- Embedding of `resourceServiceBusSubscriptionRead`
(servicebus_subscription_resource.go:239-285). Parses `d.Id()`, calls Get;
on a not-found error clears the ID and returns nil; on any other error
returns it wrapped; otherwise copies the ID components and the body
properties into state. -/
def resourceServiceBusSubscriptionRead (env : SubscriptionReadEnv)
    (d : ResourceData) : RunResult :=
  match parse.SubscriptionID d.id with
  | .error e => ⟨d, [], .error e⟩
  | .ok id =>
    match env.get.err with
    | some e =>
      if ResponseWasNotFound env.get.Response then
        ⟨{ d with id := [] }, [.callGet, .setId []], .ok ()⟩
      else
        ⟨d, [.callGet], .error (strL "retrieving " ++ id.ID ++ strL ": " ++ e)⟩
    | none =>
      let legacy : List Act :=
        if ¬ env.threePointOhBeta then
          [.setAttr (strL "topic_name"), .setAttr (strL "namespace_name"),
           .setAttr (strL "resource_group_name")]
        else []
      let base : List Act :=
        [.setAttr (strL "name"), .setAttr (strL "topic_id")]
      let propAttrs : List Act :=
        match env.get.value with
        | none => []
        | some props =>
          [.setAttr (strL "auto_delete_on_idle"), .setAttr (strL "default_message_ttl"),
           .setAttr (strL "lock_duration"),
           .setAttr (strL "dead_lettering_on_message_expiration"),
           .setAttr (strL "dead_lettering_on_filter_evaluation_error"),
           .setAttr (strL "enable_batched_operations"), .setAttr (strL "requires_session"),
           .setAttr (strL "forward_to"), .setAttr (strL "forward_dead_lettered_messages_to"),
           .setAttr (strL "status")] ++
          (match props.MaxDeliveryCount with
           | some _ => [.setAttr (strL "max_delivery_count")]
           | none => [])
      ⟨d, .callGet :: (legacy ++ base ++ propAttrs), .ok ()⟩

/-- The schema arguments `resourceServiceBusSubscriptionCreateUpdate` reads
to compute the resource ID (the request-payload arguments are marshalled
into the CreateOrUpdate body and never branch the handler). -/
structure SubscriptionConfig where
  topic_id : Str
  name : Str
  resource_group_name : Str
  namespace_name : Str
  topic_name : Str
deriving Repr

/-- Oracle for `resourceServiceBusSubscriptionCreateUpdate`: the existence
Get, the CreateOrUpdate call, and the trailing Read. -/
structure SubscriptionCreateEnv where
  existingGet : CallResult Unit
  createOrUpdate : CallResult Unit
  read : SubscriptionReadEnv
  threePointOhBeta : Bool
deriving Repr

/-- Embedding of `resourceServiceBusSubscriptionCreateUpdate`
(servicebus_subscription_resource.go:172-237). Computes the resource ID from
`topic_id` (or the deprecated per-component fields), guards a new resource
behind an existence Get (import-as-exists on a hit), calls CreateOrUpdate,
stores the formatted ID, and ends by running Read. On a `topic_id` that
fails to parse Go would dereference a nil pointer; that path is unreachable
(`topic_id` is schema-validated) and is embedded as the zero-valued ID. -/
def resourceServiceBusSubscriptionCreateUpdate (env : SubscriptionCreateEnv)
    (cfg : SubscriptionConfig) (subscriptionId : Str) (d : ResourceData) : RunResult :=
  let resourceId : parse.SubscriptionId :=
    if cfg.topic_id ≠ [] then
      match parse.TopicID cfg.topic_id with
      | .ok topicId =>
        parse.NewSubscriptionID topicId.SubscriptionId topicId.ResourceGroup
          topicId.NamespaceName topicId.Name cfg.name
      | .error _ => ⟨[], [], [], [], []⟩
    else if ¬ env.threePointOhBeta then
      parse.NewSubscriptionID subscriptionId cfg.resource_group_name
        cfg.namespace_name cfg.topic_name cfg.name
    else ⟨[], [], [], [], []⟩
  let afterGuard : Option (List Act × Str) :=
    if d.isNew then
      match env.existingGet.err with
      | some e =>
        if ¬ ResponseWasNotFound env.existingGet.Response then
          some ([.callGet],
            strL "checking for presence of existing " ++ resourceId.ID ++ strL ": " ++ e)
        else none
      | none =>
        if ¬ ResponseWasNotFound env.existingGet.Response then
          some ([.callGet],
            tf.ImportAsExistsError (strL "azurerm_servicebus_subscription") resourceId.ID)
        else none
    else none
  match afterGuard with
  | some (tr, e) => ⟨d, tr, .error e⟩
  | none =>
    let guardTrace : List Act := if d.isNew then [.callGet] else []
    match env.createOrUpdate.err with
    | some e =>
      ⟨d, guardTrace ++ [.callCreateOrUpdate],
        .error (strL "creating/updating " ++ resourceId.ID ++ strL ": " ++ e)⟩
    | none =>
      let d1 : ResourceData := { d with id := resourceId.ID }
      let readRun := resourceServiceBusSubscriptionRead env.read d1
      ⟨readRun.d,
        guardTrace ++ [.callCreateOrUpdate, .setId resourceId.ID] ++ readRun.trace,
        readRun.result⟩

/-- Oracle for `resourceServiceBusSubscriptionDelete`. -/
structure SubscriptionDeleteEnv where
  delete : CallResult Unit
deriving Repr

/-- Embedding of `resourceServiceBusSubscriptionDelete`
(servicebus_subscription_resource.go:287-302). Parses `d.Id()`, calls
Delete, wrapping its error. -/
def resourceServiceBusSubscriptionDelete (env : SubscriptionDeleteEnv)
    (d : ResourceData) : RunResult :=
  match parse.SubscriptionID d.id with
  | .error e => ⟨d, [], .error e⟩
  | .ok id =>
    match env.delete.err with
    | some e =>
      ⟨d, [.callDelete], .error (strL "deleting " ++ id.ID ++ strL ": " ++ e)⟩
    | none => ⟨d, [.callDelete], .ok ()⟩

/-- Oracle for `resourceServiceBusNamespaceAuthorizationRuleRead`: the
GetAuthorizationRule and ListKeys calls plus the feature flag. `get.value`
is whether the body carried `SBAuthorizationRuleProperties`. -/
structure NamespaceAuthRuleReadEnv where
  get : CallResult Bool
  listKeys : CallResult Unit
  threePointOhBeta : Bool
deriving Repr

/-- Embedding of `resourceServiceBusNamespaceAuthorizationRuleRead`
(servicebus_namespace_authorization_rule_resource.go:145-191). Parses
`d.Id()`, calls GetAuthorizationRule (clearing the ID and returning nil on
not-found, wrapping any other error), calls ListKeys (wrapping its error),
then copies components, rights and keys into state. -/
def resourceServiceBusNamespaceAuthorizationRuleRead (env : NamespaceAuthRuleReadEnv)
    (d : ResourceData) : RunResult :=
  match parse.NamespaceAuthorizationRuleID d.id with
  | .error e => ⟨d, [], .error e⟩
  | .ok id =>
    match env.get.err with
    | some e =>
      if ResponseWasNotFound env.get.Response then
        ⟨{ d with id := [] }, [.callGet, .setId []], .ok ()⟩
      else
        ⟨d, [.callGet], .error (strL "retrieving " ++ id.ID ++ strL ": " ++ e)⟩
    | none =>
      match env.listKeys.err with
      | some e =>
        ⟨d, [.callGet, .callListKeys],
          .error (strL "listing keys for " ++ id.ID ++ strL ": " ++ e)⟩
      | none =>
        let legacy : List Act :=
          if ¬ env.threePointOhBeta then
            [.setAttr (strL "namespace_name"), .setAttr (strL "resource_group_name")]
          else []
        let rights : List Act :=
          if env.get.value then
            [.setAttr (strL "manage"), .setAttr (strL "listen"), .setAttr (strL "send")]
          else []
        ⟨d, [.callGet, .callListKeys, .setAttr (strL "name")] ++ legacy ++
            [.setAttr (strL "namespace_id")] ++ rights ++
            [.setAttr (strL "primary_key"), .setAttr (strL "primary_connection_string"),
             .setAttr (strL "secondary_key"), .setAttr (strL "secondary_connection_string"),
             .setAttr (strL "primary_connection_string_alias"),
             .setAttr (strL "secondary_connection_string_alias")],
          .ok ()⟩

/-- The schema arguments the namespace authorization rule create/update
handler reads to compute the resource ID. -/
structure NamespaceAuthRuleConfig where
  namespace_id : Str
  name : Str
  resource_group_name : Str
  namespace_name : Str
deriving Repr

/-- Oracle for `resourceServiceBusNamespaceAuthorizationRuleCreateUpdate`:
the existence GetAuthorizationRule, the CreateOrUpdateAuthorizationRule
call, the paired-namespace replication wait, and the trailing Read. -/
structure NamespaceAuthRuleCreateEnv where
  existingGet : CallResult Unit
  createOrUpdate : CallResult Unit
  waitReplication : Option Str
  read : NamespaceAuthRuleReadEnv
  threePointOhBeta : Bool
deriving Repr

/-- Embedding of `resourceServiceBusNamespaceAuthorizationRuleCreateUpdate`
(servicebus_namespace_authorization_rule_resource.go:96-143). Computes the
ID from `namespace_id` (or the deprecated fields), guards a new resource
behind an existence Get, calls CreateOrUpdateAuthorizationRule, stores the
formatted ID, waits for paired-namespace replication (wrapping a wait
failure), and ends by running Read. -/
def resourceServiceBusNamespaceAuthorizationRuleCreateUpdate
    (env : NamespaceAuthRuleCreateEnv) (cfg : NamespaceAuthRuleConfig)
    (subscriptionId : Str) (d : ResourceData) : RunResult :=
  let resourceId : parse.NamespaceAuthorizationRuleId :=
    if cfg.namespace_id ≠ [] then
      match parse.NamespaceID cfg.namespace_id with
      | .ok namespaceId =>
        parse.NewNamespaceAuthorizationRuleID namespaceId.SubscriptionId
          namespaceId.ResourceGroup namespaceId.Name cfg.name
      | .error _ => ⟨[], [], [], []⟩
    else if ¬ env.threePointOhBeta then
      parse.NewNamespaceAuthorizationRuleID subscriptionId cfg.resource_group_name
        cfg.namespace_name cfg.name
    else ⟨[], [], [], []⟩
  let afterGuard : Option Str :=
    if d.isNew then
      match env.existingGet.err with
      | some e =>
        if ¬ ResponseWasNotFound env.existingGet.Response then
          some (strL "checking for presence of existing " ++ resourceId.ID ++ strL ": " ++ e)
        else none
      | none =>
        if ¬ ResponseWasNotFound env.existingGet.Response then
          some (tf.ImportAsExistsError
            (strL "azurerm_servicebus_namespace_authorization_rule") resourceId.ID)
        else none
    else none
  let guardTrace : List Act := if d.isNew then [.callGet] else []
  match afterGuard with
  | some e => ⟨d, guardTrace, .error e⟩
  | none =>
    match env.createOrUpdate.err with
    | some e =>
      ⟨d, guardTrace ++ [.callCreateOrUpdate],
        .error (strL "creating/updating " ++ resourceId.ID ++ strL ": " ++ e)⟩
    | none =>
      let d1 : ResourceData := { d with id := resourceId.ID }
      match env.waitReplication with
      | some e =>
        ⟨d1, guardTrace ++ [.callCreateOrUpdate, .setId resourceId.ID, .callWaitReplication],
          .error (strL "waiting for replication to complete for Service Bus Namespace Disaster Recovery Configs: " ++ e)⟩
      | none =>
        let readRun := resourceServiceBusNamespaceAuthorizationRuleRead env.read d1
        ⟨readRun.d,
          guardTrace ++ [.callCreateOrUpdate, .setId resourceId.ID, .callWaitReplication]
            ++ readRun.trace,
          readRun.result⟩

/-- Oracle for `resourceServiceBusNamespaceAuthorizationRuleDelete`. -/
structure NamespaceAuthRuleDeleteEnv where
  delete : CallResult Unit
  waitReplication : Option Str
deriving Repr

/-- Embedding of `resourceServiceBusNamespaceAuthorizationRuleDelete`
(servicebus_namespace_authorization_rule_resource.go:193-212). Parses
`d.Id()`, calls DeleteAuthorizationRule (wrapping its error), then waits for
paired-namespace replication (wrapping a wait failure). -/
def resourceServiceBusNamespaceAuthorizationRuleDelete
    (env : NamespaceAuthRuleDeleteEnv) (d : ResourceData) : RunResult :=
  match parse.NamespaceAuthorizationRuleID d.id with
  | .error e => ⟨d, [], .error e⟩
  | .ok id =>
    match env.delete.err with
    | some e =>
      ⟨d, [.callDelete], .error (strL "deleting " ++ id.ID ++ strL ": " ++ e)⟩
    | none =>
      match env.waitReplication with
      | some e =>
        ⟨d, [.callDelete, .callWaitReplication],
          .error (strL "waiting for replication to complete for Service Bus Namespace Disaster Recovery Configs: " ++ e)⟩
      | none => ⟨d, [.callDelete, .callWaitReplication], .ok ()⟩

/-- Oracle for `resourceServiceBusTopicAuthorizationRuleRead`. `get.value` is
whether the body carried `SBAuthorizationRuleProperties`. -/
structure TopicAuthRuleReadEnv where
  get : CallResult Bool
  listKeys : CallResult Unit
  threePointOhBeta : Bool
deriving Repr

/-- Embedding of `resourceServiceBusTopicAuthorizationRuleRead`
(servicebus_topic_authorization_rule_resource.go:154-201). Parses `d.Id()`,
calls GetAuthorizationRule (clearing the ID and returning nil on not-found,
wrapping any other error), copies components and rights, then calls ListKeys
(wrapping its error) and copies the keys. -/
def resourceServiceBusTopicAuthorizationRuleRead (env : TopicAuthRuleReadEnv)
    (d : ResourceData) : RunResult :=
  match parse.TopicAuthorizationRuleID d.id with
  | .error e => ⟨d, [], .error e⟩
  | .ok id =>
    match env.get.err with
    | some e =>
      if ResponseWasNotFound env.get.Response then
        ⟨{ d with id := [] }, [.callGet, .setId []], .ok ()⟩
      else
        ⟨d, [.callGet], .error (strL "retrieving " ++ id.ID ++ strL ": " ++ e)⟩
    | none =>
      let legacy : List Act :=
        if ¬ env.threePointOhBeta then
          [.setAttr (strL "topic_name"), .setAttr (strL "namespace_name"),
           .setAttr (strL "resource_group_name")]
        else []
      let rights : List Act :=
        if env.get.value then
          [.setAttr (strL "listen"), .setAttr (strL "send"), .setAttr (strL "manage")]
        else []
      match env.listKeys.err with
      | some e =>
        ⟨d, [.callGet] ++ legacy ++ [.setAttr (strL "name"), .setAttr (strL "topic_id")]
            ++ rights ++ [.callListKeys],
          .error (strL "listing keys for " ++ id.ID ++ strL ": " ++ e)⟩
      | none =>
        ⟨d, [.callGet] ++ legacy ++ [.setAttr (strL "name"), .setAttr (strL "topic_id")]
            ++ rights ++ [.callListKeys,
             .setAttr (strL "primary_key"), .setAttr (strL "primary_connection_string"),
             .setAttr (strL "secondary_key"), .setAttr (strL "secondary_connection_string"),
             .setAttr (strL "primary_connection_string_alias"),
             .setAttr (strL "secondary_connection_string_alias")],
          .ok ()⟩

/-- The schema arguments the topic authorization rule create/update handler
reads to compute the resource ID. -/
structure TopicAuthRuleConfig where
  topic_id : Str
  name : Str
  resource_group_name : Str
  namespace_name : Str
  topic_name : Str
deriving Repr

/-- Oracle for `resourceServiceBusTopicAuthorizationRuleCreateUpdate`. -/
structure TopicAuthRuleCreateEnv where
  existingGet : CallResult Unit
  createOrUpdate : CallResult Unit
  waitReplication : Option Str
  read : TopicAuthRuleReadEnv
  threePointOhBeta : Bool
deriving Repr

/-- Embedding of `resourceServiceBusTopicAuthorizationRuleCreateUpdate`
(servicebus_topic_authorization_rule_resource.go:106-152). Computes the ID
from `topic_id` (or the deprecated fields), guards a new resource behind an
existence Get, calls CreateOrUpdateAuthorizationRule, stores the formatted
ID, waits for paired-namespace replication, and ends by running Read. -/
def resourceServiceBusTopicAuthorizationRuleCreateUpdate
    (env : TopicAuthRuleCreateEnv) (cfg : TopicAuthRuleConfig)
    (subscriptionId : Str) (d : ResourceData) : RunResult :=
  let resourceId : parse.TopicAuthorizationRuleId :=
    if cfg.topic_id ≠ [] then
      match parse.TopicID cfg.topic_id with
      | .ok topicId =>
        parse.NewTopicAuthorizationRuleID topicId.SubscriptionId topicId.ResourceGroup
          topicId.NamespaceName topicId.Name cfg.name
      | .error _ => ⟨[], [], [], [], []⟩
    else if ¬ env.threePointOhBeta then
      parse.NewTopicAuthorizationRuleID subscriptionId cfg.resource_group_name
        cfg.namespace_name cfg.topic_name cfg.name
    else ⟨[], [], [], [], []⟩
  let afterGuard : Option Str :=
    if d.isNew then
      match env.existingGet.err with
      | some e =>
        if ¬ ResponseWasNotFound env.existingGet.Response then
          some (strL "checking for presence of existing " ++ resourceId.ID ++ strL ": " ++ e)
        else none
      | none =>
        if ¬ ResponseWasNotFound env.existingGet.Response then
          some (tf.ImportAsExistsError
            (strL "azurerm_servicebus_topic_authorization_rule") resourceId.ID)
        else none
    else none
  let guardTrace : List Act := if d.isNew then [.callGet] else []
  match afterGuard with
  | some e => ⟨d, guardTrace, .error e⟩
  | none =>
    match env.createOrUpdate.err with
    | some e =>
      ⟨d, guardTrace ++ [.callCreateOrUpdate],
        .error (strL "creating/updating " ++ resourceId.ID ++ strL ": " ++ e)⟩
    | none =>
      let d1 : ResourceData := { d with id := resourceId.ID }
      match env.waitReplication with
      | some e =>
        ⟨d1, guardTrace ++ [.callCreateOrUpdate, .setId resourceId.ID, .callWaitReplication],
          .error (strL "waiting for replication to complete for Service Bus Namespace Disaster Recovery Configs: " ++ e)⟩
      | none =>
        let readRun := resourceServiceBusTopicAuthorizationRuleRead env.read d1
        ⟨readRun.d,
          guardTrace ++ [.callCreateOrUpdate, .setId resourceId.ID, .callWaitReplication]
            ++ readRun.trace,
          readRun.result⟩

/-- Oracle for `resourceServiceBusTopicAuthorizationRuleDelete`. -/
structure TopicAuthRuleDeleteEnv where
  delete : CallResult Unit
  waitReplication : Option Str
deriving Repr

/-- Embedding of `resourceServiceBusTopicAuthorizationRuleDelete`
(servicebus_topic_authorization_rule_resource.go:203-222). Parses `d.Id()`,
calls DeleteAuthorizationRule (wrapping its error), then waits for
paired-namespace replication (wrapping a wait failure). -/
def resourceServiceBusTopicAuthorizationRuleDelete
    (env : TopicAuthRuleDeleteEnv) (d : ResourceData) : RunResult :=
  match parse.TopicAuthorizationRuleID d.id with
  | .error e => ⟨d, [], .error e⟩
  | .ok id =>
    match env.delete.err with
    | some e =>
      ⟨d, [.callDelete], .error (strL "deleting " ++ id.ID ++ strL ": " ++ e)⟩
    | none =>
      match env.waitReplication with
      | some e =>
        ⟨d, [.callDelete, .callWaitReplication],
          .error (strL "waiting for replication to complete for Service Bus Namespace Disaster Recovery Configs: " ++ e)⟩
      | none => ⟨d, [.callDelete, .callWaitReplication], .ok ()⟩

end servicebus

namespace parse

/-- Modelled from the spec: the Container App Managed Environment ID
(missing `managedenvironments.ManagedEnvironmentId`). -/
structure ManagedEnvironmentId where
  SubscriptionId : Str
  ResourceGroupName : Str
  ManagedEnvironmentName : Str
deriving DecidableEq, Repr

def managedEnvironmentIdPattern : List SegPat :=
  [.lit [], .lit "subscriptions".toList, .val, .lit "resourceGroups".toList, .val,
   .lit "providers".toList, .lit "Microsoft.App".toList,
   .lit "managedEnvironments".toList, .val]

/-- Modelled from the spec: `managedenvironments.ParseManagedEnvironmentID`. -/
def ParseManagedEnvironmentID (input : Str) : Except Str ManagedEnvironmentId :=
  match matchSegs managedEnvironmentIdPattern (splitOnSlash input) with
  | some [sub, rg, name] => .ok ⟨sub, rg, name⟩
  | _ => .error ("parsing Managed Environment ID".toList ++ input)

end parse

namespace sdk

/-- Modelled from the spec: `metadata.ResourceRequiresImport` (the typed-SDK
`internal/sdk` package is missing from the excerpt) — the error returned
when a to-be-created typed resource already exists remotely. -/
def ResourceRequiresImport (resourceType idStr : Str) : Str :=
  strL "A resource with the ID " ++ idStr ++
    strL " already exists - to be managed via Terraform this resource needs to be imported into the State. Please see the resource documentation for " ++
    resourceType ++ strL " for more information."

end sdk

namespace appservice

/-- The schema arguments `LinuxFunctionAppOnContainerResource.Create` reads
before reaching the SDK calls. -/
structure LinuxFunctionAppOnContainerConfig where
  name : Str
  resource_group_name : Str
  container_app_environment_id : Str
deriving Repr

/-- Oracle for `LinuxFunctionAppOnContainerResource.Create`: the storage
domain suffix lookup, the decode step, the existence Get, the environment
Get, the name-availability check, the CreateOrUpdate future, and the
future's wait-for-completion. -/
structure LinuxFunctionAppCreateEnv where
  domainSuffixOk : Bool
  decodeErr : Option Str
  existingGet : CallResult Unit
  envGet : CallResult Unit
  checkName : CallResult (Option Bool)
  createOrUpdate : CallResult Unit
  waitFuture : Option Str
deriving Repr

/-- Embedding of `LinuxFunctionAppOnContainerResource.Create().Func`
(part_002 lines 173-270). Resolves the storage domain suffix, decodes the
model, computes the Function App ID, guards creation behind an existence Get
(resource-requires-import on a hit), parses and reads the Container App
environment, checks name availability, calls CreateOrUpdate and waits for
the returned future, and only then stores the ID and returns nil. The
request-payload assembly (storage string, site config, app settings merge)
is pure data marshalling into the CreateOrUpdate body and does not branch
the handler. -/
def linuxFunctionAppOnContainerCreate (env : LinuxFunctionAppCreateEnv)
    (cfg : LinuxFunctionAppOnContainerConfig) (subscriptionId : Str)
    (d : ResourceData) : RunResult :=
  if ¬ env.domainSuffixOk then
    ⟨d, [], .error (strL "could not determine Storage domain suffix for environment")⟩
  else
    match env.decodeErr with
    | some e => ⟨d, [], .error e⟩
    | none =>
      let id := parse.NewFunctionAppID subscriptionId cfg.resource_group_name cfg.name
      match env.existingGet.err, ResponseWasNotFound env.existingGet.Response with
      | some e, false =>
        ⟨d, [.callGet],
          .error (strL "checking for presence of existing Linux " ++ id.ID ++ strL ": " ++ e)⟩
      | _, false =>
        ⟨d, [.callGet],
          .error (sdk.ResourceRequiresImport
            (strL "azurerm_linux_function_app_on_container") id.ID)⟩
      | _, true =>
        match parse.ParseManagedEnvironmentID cfg.container_app_environment_id with
        | .error e => ⟨d, [.callGet], .error (strL "parsing Container App Environment ID: " ++ e)⟩
        | .ok _ =>
          match env.envGet.err with
          | some e => ⟨d, [.callGet, .callGetEnv], .error (strL "reading environment: " ++ e)⟩
          | none =>
            match env.checkName.err with
            | some e =>
              ⟨d, [.callGet, .callGetEnv, .callCheckName],
                .error (strL "checking name availability for Linux " ++ id.ID ++ strL ": " ++ e)⟩
            | none =>
              if env.checkName.value = some false then
                ⟨d, [.callGet, .callGetEnv, .callCheckName],
                  .error (strL "the Site Name failed the availability check")⟩
              else
                match env.createOrUpdate.err with
                | some e =>
                  ⟨d, [.callGet, .callGetEnv, .callCheckName, .callCreateOrUpdate],
                    .error (strL "creating Linux " ++ id.ID ++ strL ": " ++ e)⟩
                | none =>
                  match env.waitFuture with
                  | some e =>
                    ⟨d, [.callGet, .callGetEnv, .callCheckName, .callCreateOrUpdate,
                         .callWaitFuture],
                      .error (strL "waiting for creation of Linux " ++ id.ID ++ strL ": " ++ e)⟩
                  | none =>
                    ⟨{ d with id := id.ID },
                      [.callGet, .callGetEnv, .callCheckName, .callCreateOrUpdate,
                       .callWaitFuture, .setId id.ID],
                      .ok ()⟩

/-- Oracle for `LinuxFunctionAppOnContainerResource.Update`. -/
structure LinuxFunctionAppUpdateEnv where
  domainSuffixOk : Bool
  decodeErr : Option Str
  get : CallResult Unit
  createOrUpdate : CallResult Unit
  waitFuture : Option Str
  updateConfiguration : CallResult Unit
deriving Repr

/-- Embedding of `LinuxFunctionAppOnContainerResource.Update().Func`
(part_002 lines 352-415). Resolves the storage domain suffix, parses
`d.Id()`, decodes the model, reads the existing site, calls CreateOrUpdate,
waits for the returned future, then updates the site configuration; each
failing step returns its wrapped error. -/
def linuxFunctionAppOnContainerUpdate (env : LinuxFunctionAppUpdateEnv)
    (d : ResourceData) : RunResult :=
  if ¬ env.domainSuffixOk then
    ⟨d, [], .error (strL "could not determine Storage domain suffix for environment")⟩
  else
    match parse.FunctionAppID d.id with
    | .error e => ⟨d, [], .error e⟩
    | .ok id =>
      match env.decodeErr with
      | some e => ⟨d, [], .error (strL "decoding: " ++ e)⟩
      | none =>
        match env.get.err with
        | some e => ⟨d, [.callGet], .error (strL "reading Linux " ++ id.ID ++ strL ": " ++ e)⟩
        | none =>
          match env.createOrUpdate.err with
          | some e =>
            ⟨d, [.callGet, .callCreateOrUpdate],
              .error (strL "updating Linux " ++ id.ID ++ strL ": " ++ e)⟩
          | none =>
            match env.waitFuture with
            | some e =>
              ⟨d, [.callGet, .callCreateOrUpdate, .callWaitFuture],
                .error (strL "waiting to update " ++ id.ID ++ strL ": " ++ e)⟩
            | none =>
              match env.updateConfiguration.err with
              | some e =>
                ⟨d, [.callGet, .callCreateOrUpdate, .callWaitFuture,
                     .callUpdateConfiguration],
                  .error (strL "updating Site Config for Linux " ++ id.ID ++ strL ": " ++ e)⟩
              | none =>
                ⟨d, [.callGet, .callCreateOrUpdate, .callWaitFuture,
                     .callUpdateConfiguration], .ok ()⟩

/-- Oracle for `LinuxFunctionAppOnContainerResource.Read`. `get.value` is
whether the body carried `SiteProperties`. -/
structure LinuxFunctionAppReadEnv where
  get : CallResult Bool
  listAppSettings : CallResult Unit
  getConfiguration : CallResult Unit
  decodeFxErr : Option Str
deriving Repr

/-- Embedding of `LinuxFunctionAppOnContainerResource.Read().Func`
(part_002 lines 272-329). Parses `d.Id()`, reads the site (marking the
resource as gone — clearing the ID and returning nil — on not-found,
wrapping any other error; `metadata.MarkAsGone` is missing from the excerpt
and modelled from the spec as that clearing), requires `SiteProperties`,
lists the app settings, reads the site configuration, decodes the container
image and unpacks the app settings. -/
def linuxFunctionAppOnContainerRead (env : LinuxFunctionAppReadEnv)
    (d : ResourceData) : RunResult :=
  match parse.FunctionAppID d.id with
  | .error e => ⟨d, [], .error e⟩
  | .ok id =>
    match env.get.err with
    | some e =>
      if ResponseWasNotFound env.get.Response then
        ⟨{ d with id := [] }, [.callGet, .setId []], .ok ()⟩
      else
        ⟨d, [.callGet], .error (strL "reading Linux " ++ id.ID ++ strL ": " ++ e)⟩
    | none =>
      if ¬ env.get.value then
        ⟨d, [.callGet], .error (strL "reading properties of Linux " ++ id.ID)⟩
      else
        match env.listAppSettings.err with
        | some e =>
          ⟨d, [.callGet, .callListAppSettings],
            .error (strL "reading App Settings for Linux " ++ id.ID ++ strL ": " ++ e)⟩
        | none =>
          match env.getConfiguration.err with
          | some e =>
            ⟨d, [.callGet, .callListAppSettings, .callGetConfiguration],
              .error (strL "making Read request on AzureRM Function App Configuration " ++
                id.SiteName ++ strL ": " ++ e)⟩
          | none =>
            match env.decodeFxErr with
            | some e =>
              ⟨d, [.callGet, .callListAppSettings, .callGetConfiguration],
                .error (strL "flattening linuxFxVersion: " ++ e)⟩
            | none =>
              ⟨d, [.callGet, .callListAppSettings, .callGetConfiguration], .ok ()⟩

/-- Oracle for `LinuxFunctionAppOnContainerResource.Delete`. -/
structure LinuxFunctionAppDeleteEnv where
  delete : CallResult Unit
deriving Repr

/-- Embedding of `LinuxFunctionAppOnContainerResource.Delete().Func`
(part_002 lines 331-350). Parses `d.Id()` and deletes the site, wrapping a
delete error. -/
def linuxFunctionAppOnContainerDelete (env : LinuxFunctionAppDeleteEnv)
    (d : ResourceData) : RunResult :=
  match parse.FunctionAppID d.id with
  | .error e => ⟨d, [], .error e⟩
  | .ok id =>
    match env.delete.err with
    | some e =>
      ⟨d, [.callDelete], .error (strL "deleting Linux " ++ id.ID ++ strL ": " ++ e)⟩
    | none => ⟨d, [.callDelete], .ok ()⟩

end appservice

namespace containers

/-- The fields of `containerservice.ManagedClusterProperties` that branch the
data-source Read (presence of an AAD profile and the local-accounts switch
decide whether the admin access profile is fetched). -/
structure ManagedClusterProperties where
  hasAadProfile : Bool
  DisableLocalAccounts : Option Bool
deriving Repr

/-- The schema arguments `dataSourceKubernetesClusterRead` reads. -/
structure KubernetesClusterDataSourceConfig where
  name : Str
  resource_group_name : Str
deriving Repr

/-- Oracle for `dataSourceKubernetesClusterRead`: the cluster Get, the
`clusterUser` access-profile Get, and the conditional `clusterAdmin`
access-profile Get. -/
structure KubernetesClusterReadEnv where
  get : CallResult (Option ManagedClusterProperties)
  getAccessProfile : CallResult Unit
  getAdminAccessProfile : CallResult Unit
  threePointOhBeta : Bool
deriving Repr

/-- Embedding of `dataSourceKubernetesClusterRead` (part_005 lines 864 ff.).
Builds the cluster ID from the configuration, reads the cluster — returning
a "was not found" error on not-found and a wrapped error otherwise — reads
the `clusterUser` access profile (wrapping its error), and only then stores
the ID and copies the attributes; when the cluster has an AAD profile and
local accounts are not disabled it also reads the `clusterAdmin` access
profile, wrapping its error. The per-attribute flattening (which copies
response fields into state) is represented by the attribute-set actions on
the main keys; its `d.Set` marshalling error paths involve no SDK call. -/
def dataSourceKubernetesClusterRead (env : KubernetesClusterReadEnv)
    (cfg : KubernetesClusterDataSourceConfig) (subscriptionId : Str)
    (d : ResourceData) : RunResult :=
  let id := parse.NewClusterID subscriptionId cfg.resource_group_name cfg.name
  match env.get.err with
  | some e =>
    if ResponseWasNotFound env.get.Response then
      ⟨d, [.callGet], .error (id.ID ++ strL " was not found")⟩
    else
      ⟨d, [.callGet], .error (strL "retrieving " ++ id.ID ++ strL ": " ++ e)⟩
  | none =>
    match env.getAccessProfile.err with
    | some e =>
      ⟨d, [.callGet, .callGetAccessProfile],
        .error (strL "retrieving Access Profile for " ++ id.ID ++ strL ": " ++ e)⟩
    | none =>
      let d1 : ResourceData := { d with id := id.ID }
      let baseAttrs : List Act :=
        [.setId id.ID, .setAttr (strL "name"), .setAttr (strL "resource_group_name"),
         .setAttr (strL "location")]
      match env.get.value with
      | none =>
        ⟨d1, [.callGet, .callGetAccessProfile] ++ baseAttrs ++
          [.setAttr (strL "identity"), .setAttr (strL "kube_config_raw"),
           .setAttr (strL "kube_config")], .ok ()⟩
      | some props =>
        let propAttrs : List Act :=
          [.setAttr (strL "dns_prefix"), .setAttr (strL "fqdn"),
           .setAttr (strL "disk_encryption_set_id"), .setAttr (strL "private_fqdn"),
           .setAttr (strL "kubernetes_version"), .setAttr (strL "node_resource_group"),
           .setAttr (strL "agent_pool_profile"), .setAttr (strL "kubelet_identity"),
           .setAttr (strL "linux_profile"), .setAttr (strL "windows_profile"),
           .setAttr (strL "network_profile"),
           .setAttr (strL "role_based_access_control_enabled"),
           .setAttr (strL "azure_active_directory_role_based_access_control"),
           .setAttr (strL "service_principal")]
        if props.hasAadProfile ∧ props.DisableLocalAccounts ≠ some true then
          match env.getAdminAccessProfile.err with
          | some e =>
            ⟨d1, [.callGet, .callGetAccessProfile] ++ baseAttrs ++ propAttrs ++
              [.callGetAccessProfile],
              .error (strL "retrieving Admin Access Profile for " ++ id.ID ++ strL ": " ++ e)⟩
          | none =>
            ⟨d1, [.callGet, .callGetAccessProfile] ++ baseAttrs ++ propAttrs ++
              [.callGetAccessProfile, .setAttr (strL "kube_admin_config_raw"),
               .setAttr (strL "kube_admin_config"), .setAttr (strL "identity"),
               .setAttr (strL "kube_config_raw"), .setAttr (strL "kube_config")],
              .ok ()⟩
        else
          ⟨d1, [.callGet, .callGetAccessProfile] ++ baseAttrs ++ propAttrs ++
            [.setAttr (strL "kube_admin_config_raw"), .setAttr (strL "kube_admin_config"),
             .setAttr (strL "identity"), .setAttr (strL "kube_config_raw"),
             .setAttr (strL "kube_config")],
            .ok ()⟩

end containers

namespace storage

/-!
## The storage accounts cache (part_004)

`storageAccountsCache` is a Go map from account name to `accountDetails`,
embedded as an association list with overwrite-on-insert semantics. The two
package-level mutexes become a static lock-set model: every map access in the
file is listed with the locks held at that program point, and data-race
freedom of a pair of accesses is the lock-set criterion (some common lock, or
both reads).
-/

/-- `accountDetails` (part_004 lines 34-43). `Kind`, `Sku` and `Properties`
are opaque SDK payloads copied through unchanged; they are embedded as
tokens. -/
structure accountDetails where
  ID : Str
  Kind : Str
  Sku : Option Str
  ResourceGroup : Str
  Properties : Option Str
  accountKey : Option Str
  name : Str
deriving DecidableEq, Repr

/-- The slice of `storage.Account` read by `populateAccountDetails`. -/
structure Account where
  Name : Option Str
  ID : Option Str
  Kind : Str
  Sku : Option Str
  AccountProperties : Option Str
deriving DecidableEq, Repr

/-- The cache map. -/
abbrev Cache := List (Str × accountDetails)

/-- Go map read `m[k]`. -/
def mapLookup (m : Cache) (k : Str) : Option accountDetails :=
  match m with
  | [] => none
  | (k', v) :: rest => if k' = k then some v else mapLookup rest k

/-- Go map write `m[k] = v` (overwrites an existing entry). -/
def mapInsert (m : Cache) (k : Str) (v : accountDetails) : Cache :=
  match m with
  | [] => [(k, v)]
  | (k', v') :: rest => if k' = k then (k, v) :: rest else (k', v') :: mapInsert rest k v

/-- Go `delete(m, k)`. -/
def mapDelete (m : Cache) (k : Str) : Cache :=
  match m with
  | [] => []
  | (k', v') :: rest => if k' = k then mapDelete rest k else (k', v') :: mapDelete rest k

/-- Embedding of `populateAccountDetails` (part_004 lines 176-195): requires
a non-nil `ID`, parses it as a storage account resource ID, and assembles the
details record. -/
def populateAccountDetails (accountName : Str) (props : Account) :
    Except Str accountDetails :=
  match props.ID with
  | none => .error (strL "id was nil for Account " ++ accountName)
  | some accountId =>
    match parse.ParseStorageAccountID accountId with
    | .error e => .error (strL "parsing " ++ accountId ++ strL " as a Resource ID: " ++ e)
    | .ok id =>
      .ok { name := accountName
            ID := accountId
            Kind := props.Kind
            Sku := props.Sku
            ResourceGroup := id.ResourceGroupName
            Properties := props.AccountProperties
            accountKey := none }

/-- Embedding of `Client.AddToCache` (part_004 lines 114-126). -/
def AddToCache (cache : Cache) (accountName : Str) (props : Account) :
    Cache × Except Str Unit :=
  match populateAccountDetails accountName props with
  | .error e => (cache, .error e)
  | .ok account => (mapInsert cache accountName account, .ok ())

/-- Embedding of `Client.RemoveAccountFromCache` (part_004 lines 128-132). -/
def RemoveAccountFromCache (cache : Cache) (accountName : Str) : Cache :=
  mapDelete cache accountName

/-- The loop body of `FindAccount` over the listed accounts (part_004 lines
156-167): skips accounts without a name, populates and inserts the others,
returning the partially updated cache on a populate error. -/
def insertAccounts : Cache → List Account → Except (Cache × Str) Cache
  | c, [] => .ok c
  | c, v :: rest =>
    match v.Name with
    | none => insertAccounts c rest
    | some name =>
      match populateAccountDetails name v with
      | .error e => .error (c, e)
      | .ok account => insertAccounts (mapInsert c name account) rest

/-- Oracle for `FindAccount`: the flattened result of the paged
`AccountsClient.List` retrieval. -/
structure FindAccountEnv where
  list : Except Str (List Account)
deriving Repr

/-- The outcome of one `FindAccount` run: the updated cache, the returned
`(*accountDetails, error)` pair, and whether a remote call was made. -/
structure FindResult where
  cache : Cache
  result : Except Str (Option accountDetails)
  remoteCalled : Bool
deriving Repr

/-- Embedding of `Client.FindAccount` (part_004 lines 134-174). Returns the
cached entry without a remote call on a cache hit; otherwise lists all
storage accounts remotely, populates the cache from them, and returns the
cache entry for the requested name (or `nil, nil` when it does not exist). -/
def FindAccount (cache : Cache) (env : FindAccountEnv) (accountName : Str) : FindResult :=
  match mapLookup cache accountName with
  | some existing => ⟨cache, .ok (some existing), false⟩
  | none =>
    match env.list with
    | .error e => ⟨cache, .error (strL "retrieving storage accounts: " ++ e), true⟩
    | .ok accounts =>
      match insertAccounts cache accounts with
      | .error (partialCache, e) => ⟨partialCache, .error e, true⟩
      | .ok cache2 => ⟨cache2, .ok (mapLookup cache2 accountName), true⟩

/-- Oracle for `accountDetails.AccountKey`: the `ListKeys` result —
`none` embeds the call's `err != nil`, and the payload is `props.Keys`
(`none` for a nil slice; each entry is the key's nilable `Value`). -/
structure AccountKeyEnv where
  listKeys : Except Str (Option (List (Option Str)))
deriving Repr

/-- The outcome of one `AccountKey` run: the (possibly mutated) receiver,
the updated cache, the returned `(*string, error)` pair, and whether a
remote call was made. -/
structure AccountKeyResult where
  ad : accountDetails
  cache : Cache
  result : Except Str Str
  remoteCalled : Bool
deriving Repr

/-- Embedding of `accountDetails.AccountKey` (part_004 lines 45-70). Returns
the memoized key without a remote call when present; otherwise lists the
account keys remotely, rejects a nil/empty key set, memoizes the first key
on the receiver and force-caches the receiver into `storageAccountsCache`. -/
def AccountKey (ad : accountDetails) (cache : Cache) (env : AccountKeyEnv) :
    AccountKeyResult :=
  match ad.accountKey with
  | some k => ⟨ad, cache, .ok k, false⟩
  | none =>
    match env.listKeys with
    | .error e =>
      ⟨ad, cache, .error (strL "listing Keys for Storage Account " ++ ad.name ++
        strL ": " ++ e), true⟩
    | .ok keys =>
      match keys with
      | none =>
        ⟨ad, cache, .error (strL "keys were nil for Storage Account " ++ ad.name), true⟩
      | some [] =>
        ⟨ad, cache, .error (strL "keys were nil for Storage Account " ++ ad.name), true⟩
      | some (none :: _) =>
        ⟨ad, cache, .error (strL "keys were nil for Storage Account " ++ ad.name), true⟩
      | some (some v :: _) =>
        let ad2 : accountDetails := { ad with accountKey := some v }
        ⟨ad2, mapInsert cache ad.name ad2, .ok v, true⟩

/-- The two package-level mutexes of part_004 (lines 20-21). -/
inductive LockName
  | accountsLock
  | credentialsLock
deriving DecidableEq, Repr

/-- The kind of one access to the `storageAccountsCache` map. -/
inductive MapOp
  | readOp
  | writeOp
  | deleteOp
deriving DecidableEq, Repr

/-- One syntactic access to `storageAccountsCache`, with the function it
occurs in, its source line and the set of locks held at that point. -/
structure CacheAccess where
  fn : String
  line : Nat
  op : MapOp
  locksHeld : List LockName
deriving DecidableEq, Repr

/-- All accesses to `storageAccountsCache` in part_004, with the locks held:
`AccountKey` holds only `credentialsLock` (lines 46-47) when it force-caches
the receiver (line 67); every other access runs under `accountsLock`. -/
def storageAccountsCacheAccesses : List CacheAccess :=
  [⟨"AccountKey", 67, .writeOp, [.credentialsLock]⟩,
   ⟨"AddToCache", 123, .writeOp, [.accountsLock]⟩,
   ⟨"RemoveAccountFromCache", 130, .deleteOp, [.accountsLock]⟩,
   ⟨"FindAccount", 138, .readOp, [.accountsLock]⟩,
   ⟨"FindAccount", 166, .writeOp, [.accountsLock]⟩,
   ⟨"FindAccount", 169, .readOp, [.accountsLock]⟩]

/-- Lock-set data-race criterion for two accesses from concurrently running
operations: they race when at least one mutates and they share no lock. -/
def racy (a b : CacheAccess) : Bool :=
  (a.op ≠ MapOp.readOp ∨ b.op ≠ MapOp.readOp) ∧
    a.locksHeld.all (fun l => ¬ b.locksHeld.contains l)

end storage

namespace appservice

/-- `helpers.Registry`, restricted to the fields the unpack switch writes. -/
structure Registry where
  Server : Str
  UserName : Str
  Password : Str
deriving DecidableEq, Repr

/-- `helpers.SiteConfigLinuxFunctionAppOnContainer`, restricted to the field
the unpack switch writes. -/
structure SiteConfigLinuxFunctionAppOnContainer where
  AppInsightsConnectionString : Str
deriving DecidableEq, Repr

/-- `LinuxFunctionAppOnContainerModel` (part_002 lines 30-47), restricted to
the fields touched by `unpackLinuxFunctionAppOnContainerAppSettings`.
`AppSettings` is a Go map embedded as an association list with
overwrite-on-insert semantics. -/
structure LinuxFunctionAppOnContainerModel where
  StorageAccountName : Str
  StorageAccountKey : Str
  StorageKeyVaultSecretID : Str
  BuiltinLogging : Bool
  AppSettings : List (Str × Str)
  FunctionExtensionsVersion : Str
  SiteConfig : List SiteConfigLinuxFunctionAppOnContainer
deriving DecidableEq, Repr

/-- `web.StringDictionary`: a nilable map from setting name to nilable
string, embedded as an association list. -/
structure StringDictionary where
  Properties : Option (List (Str × Option Str))
deriving DecidableEq, Repr

/-- Modelled from the spec: `pointer.From` on `*string` — dereference, or
the zero string for nil. -/
def pointerFrom (v : Option Str) : Str := v.getD []

/-- Modelled from the spec: `utils.NormalizeNilableString` — the pointed-to
string, or the empty string for nil. -/
def NormalizeNilableString (v : Option Str) : Str := v.getD []

/-- Go map write `m[k] = v` for string maps. -/
def strMapInsert (m : List (Str × Str)) (k v : Str) : List (Str × Str) :=
  match m with
  | [] => [(k, v)]
  | (k', v') :: rest => if k' = k then (k, v) :: rest else (k', v') :: strMapInsert rest k v

/-- Go map read `m[k]` for string maps. -/
def strMapLookup (m : List (Str × Str)) (k : Str) : Option Str :=
  match m with
  | [] => none
  | (k', v') :: rest => if k' = k then some v' else strMapLookup rest k

/-- Modelled from the spec: `helpers.ParseWebJobsStorageString` (missing
from the excerpt) — extracts the `AccountName=`/`AccountKey=` parts of a
storage connection string. No claim constrains its output. -/
def ParseWebJobsStorageString (input : Option Str) : Str × Str :=
  match input with
  | none => ([], [])
  | some s =>
    (splitOnSemi s).foldl
      (fun acc part =>
        let acc :=
          if hasPrefix part (strL "AccountName") then
            (trimPrefix part (strL "AccountName="), acc.2)
          else acc
        if hasPrefix part (strL "AccountKey") then
          (acc.1, trimPrefix part (strL "AccountKey="))
        else acc)
      ([], [])
where
  /-- Go `strings.Split(s, ";")`. -/
  splitOnSemi : Str → List Str
    | [] => [[]]
    | c :: rest =>
      match splitOnSemi rest with
      | [] => if c = ';' then [[], []] else [[c]]
      | s :: ss => if c = ';' then [] :: s :: ss else (c :: s) :: ss

/-- The mutable locals of the unpack loop: the model under construction, the
(ultimately discarded) docker registry settings, and the `appSettings`
accumulator map. -/
structure UnpackState where
  m : LinuxFunctionAppOnContainerModel
  dockerSettings : Registry
  appSettings : List (Str × Str)
deriving DecidableEq, Repr

/-- The switch body of `unpackLinuxFunctionAppOnContainerAppSettings`
(part_002 lines 427-449), applied to one key/value pair. -/
def unpackApplyEntry (st : UnpackState) (k : Str) (v : Option Str) : UnpackState :=
  if k = strL "FUNCTIONS_EXTENSION_VERSION" then
    { st with m := { st.m with FunctionExtensionsVersion := pointerFrom v } }
  else if k = strL "DOCKER_REGISTRY_SERVER_URL" then
    { st with dockerSettings := { st.dockerSettings with Server := pointerFrom v } }
  else if k = strL "DOCKER_REGISTRY_SERVER_USERNAME" then
    { st with dockerSettings := { st.dockerSettings with UserName := NormalizeNilableString v } }
  else if k = strL "DOCKER_REGISTRY_SERVER_PASSWORD" then
    { st with dockerSettings := { st.dockerSettings with Password := NormalizeNilableString v } }
  else if k = strL "APPLICATIONINSIGHTS_CONNECTION_STRING" then
    { st with m := { st.m with SiteConfig :=
        match st.m.SiteConfig with
        | [] => []
        | sc0 :: rest => { sc0 with AppInsightsConnectionString := NormalizeNilableString v } :: rest } }
  else if k = strL "AzureWebJobsStorage" then
    match v with
    | some s =>
      if hasPrefix s (strL "@Microsoft.KeyVault") then
        let trimmed := trimPrefix (trimSuffix s (strL ")")) (strL "@Microsoft.KeyVault(SecretUri=")
        { st with m := { st.m with StorageKeyVaultSecretID := trimmed } }
      else
        let p := ParseWebJobsStorageString v
        { st with m := { st.m with StorageAccountName := p.1, StorageAccountKey := p.2 } }
    | none =>
      let p := ParseWebJobsStorageString v
      { st with m := { st.m with StorageAccountName := p.1, StorageAccountKey := p.2 } }
  else
    { st with appSettings := strMapInsert st.appSettings k (NormalizeNilableString v) }

/-- The `for k, v := range input.Properties` loop of the unpack function. -/
def unpackLoop : UnpackState → List (Str × Option Str) → UnpackState
  | st, [] => st
  | st, (k, v) :: rest => unpackLoop (unpackApplyEntry st k v) rest

/-- Embedding of
`LinuxFunctionAppOnContainerModel.unpackLinuxFunctionAppOnContainerAppSettings`
(part_002 lines 417-451). Returns the receiver unchanged for a nil
dictionary; otherwise clears `BuiltinLogging`, dispatches every entry
through the reserved-key switch, and stores the accumulated leftover entries
as `AppSettings`. -/
def unpackLinuxFunctionAppOnContainerAppSettings
    (m : LinuxFunctionAppOnContainerModel) (input : StringDictionary) :
    LinuxFunctionAppOnContainerModel :=
  match input.Properties with
  | none => m
  | some props =>
    let st0 : UnpackState :=
      { m := { m with BuiltinLogging := false }
        dockerSettings := ⟨[], [], []⟩
        appSettings := [] }
    let st := unpackLoop st0 props
    { st.m with AppSettings := st.appSettings }

/-- The reserved keys of the unpack switch. -/
def reservedAppSettingKeys : List Str :=
  [strL "FUNCTIONS_EXTENSION_VERSION", strL "DOCKER_REGISTRY_SERVER_URL",
   strL "DOCKER_REGISTRY_SERVER_USERNAME", strL "DOCKER_REGISTRY_SERVER_PASSWORD",
   strL "APPLICATIONINSIGHTS_CONNECTION_STRING", strL "AzureWebJobsStorage"]

end appservice

/-!
## Resource registrations: importers and timeouts
-/

/-- Go `time.Minute` in nanoseconds (`time.Duration` is an int64 nanosecond
count). -/
def timeMinute : Nat := 60 * 1000000000

namespace pluginsdk

/-- `pluginsdk.ResourceTimeout` as set by the resource definitions:
per-operation default timeouts (`pluginsdk.DefaultTimeout`). -/
structure ResourceTimeout where
  Create : Option Nat
  Read : Option Nat
  Update : Option Nat
  Delete : Option Nat
deriving DecidableEq, Repr

/-- Modelled from the spec: `pluginsdk.DefaultTimeout` (the `tf/pluginsdk`
package is missing from the excerpt) — wraps a duration as a default. -/
def DefaultTimeout (d : Nat) : Option Nat := some d

/-- The slice of a `pluginsdk.Resource` registration the claims inspect: the
importer's ID-validation function (`ImporterValidatingResourceId` stores the
function and calls it on the import ID) and the timeout block. -/
structure Resource where
  importerValidate : Str → Option Str
  Timeouts : ResourceTimeout

end pluginsdk

namespace servicebus

/-- The Go error returned by an ID-parse `Except`, as the importer
validation function returns it (`nil` for success). -/
def parseErr {α : Type} (r : Except Str α) : Option Str :=
  match r with
  | .ok _ => none
  | .error e => some e

/-- Embedding of the registration `resourceServiceBusSubscription`
(servicebus_subscription_resource.go:21-42): the importer validates an ID by
running `parse.SubscriptionID` and returning its error, and the timeouts are
30/5/30/30 minutes. -/
def resourceServiceBusSubscription : pluginsdk.Resource :=
  { importerValidate := fun id => parseErr (parse.SubscriptionID id)
    Timeouts :=
      { Create := pluginsdk.DefaultTimeout (30 * timeMinute)
        Read := pluginsdk.DefaultTimeout (5 * timeMinute)
        Update := pluginsdk.DefaultTimeout (30 * timeMinute)
        Delete := pluginsdk.DefaultTimeout (30 * timeMinute) } }

/-- Embedding of the registration `resourceServiceBusNamespaceAuthorizationRule`
(servicebus_namespace_authorization_rule_resource.go:20-44). -/
def resourceServiceBusNamespaceAuthorizationRule : pluginsdk.Resource :=
  { importerValidate := fun id => parseErr (parse.NamespaceAuthorizationRuleID id)
    Timeouts :=
      { Create := pluginsdk.DefaultTimeout (30 * timeMinute)
        Read := pluginsdk.DefaultTimeout (5 * timeMinute)
        Update := pluginsdk.DefaultTimeout (30 * timeMinute)
        Delete := pluginsdk.DefaultTimeout (30 * timeMinute) } }

/-- Embedding of the registration `resourceServiceBusTopicAuthorizationRule`
(servicebus_topic_authorization_rule_resource.go:20-43). -/
def resourceServiceBusTopicAuthorizationRule : pluginsdk.Resource :=
  { importerValidate := fun id => parseErr (parse.TopicAuthorizationRuleID id)
    Timeouts :=
      { Create := pluginsdk.DefaultTimeout (30 * timeMinute)
        Read := pluginsdk.DefaultTimeout (5 * timeMinute)
        Update := pluginsdk.DefaultTimeout (30 * timeMinute)
        Delete := pluginsdk.DefaultTimeout (30 * timeMinute) } }

end servicebus

namespace appservice

/-- The typed-SDK per-operation timeouts of `LinuxFunctionAppOnContainerResource`:
the `Timeout` field of each `sdk.ResourceFunc` (part_002 lines 175, 274, 333,
354). -/
structure TypedResourceTimeouts where
  create : Nat
  read : Nat
  update : Nat
  delete : Nat
deriving DecidableEq, Repr

/-- Embedding of the four `sdk.ResourceFunc` timeouts of
`LinuxFunctionAppOnContainerResource`. -/
def linuxFunctionAppOnContainerTimeouts : TypedResourceTimeouts :=
  { create := 30 * timeMinute
    read := 5 * timeMinute
    update := 30 * timeMinute
    delete := 30 * timeMinute }

/-- The timeout defaults documented in
website/docs/r/linux_function_app_container.html.markdown (lines 193-196), in
minutes: create, read, update, delete. -/
def linuxFunctionAppOnContainerDocTimeoutsMinutes : Nat × Nat × Nat × Nat :=
  (30, 5, 30, 30)

end appservice

namespace parse

/-- Decidable form of "every literal segment of the pattern is slash-free". -/
def litNoSlash : SegPat → Bool
  | .lit s => decide ('/' ∉ s)
  | .val => true

end parse

/-- The oracle of the C6 counterexample: the remote listing succeeds and
returns no storage accounts at all. -/
def c6EmptyListEnv : storage.FindAccountEnv := ⟨.ok []⟩

/-- The concrete model of the C10 witness. -/
def c10M : appservice.LinuxFunctionAppOnContainerModel :=
  ⟨strL "acct", strL "key", [], true, [], strL "~3", [⟨[]⟩]⟩

/-- The concrete app-settings dictionary of the C10 witness. -/
def c10Props : List (Str × Option Str) :=
  [(strL "FUNCTIONS_EXTENSION_VERSION", some (strL "~4")),
   (strL "custom_setting", some (strL "x")),
   (strL "AzureWebJobsStorage", some (strL "@Microsoft.KeyVault(SecretUri=https://kv.vault.azure.net/secrets/s1)"))]

/-- The oracle of the C7 witness: every SDK step of the Linux Function App
update succeeds except the future's wait-for-completion. -/
def c7UpdateEnv : appservice.LinuxFunctionAppUpdateEnv :=
  { domainSuffixOk := true
    decodeErr := none
    get := ⟨⟨200⟩, (), none⟩
    createOrUpdate := ⟨⟨200⟩, (), none⟩
    waitFuture := some (strL "context deadline exceeded")
    updateConfiguration := ⟨⟨200⟩, (), none⟩ }

/-- The stored state of the C7 witness: a well-formed Function App ID. -/
def c7D : ResourceData :=
  ⟨(parse.NewFunctionAppID (strL "sub0") (strL "rg1") (strL "app1")).ID, false⟩

/-- The oracle of the C9 witness: the existence GET succeeds with a 200
response (the subscription already exists remotely). -/
def c9SubEnv : servicebus.SubscriptionCreateEnv :=
  { existingGet := ⟨⟨200⟩, (), none⟩
    createOrUpdate := ⟨⟨200⟩, (), none⟩
    read := ⟨⟨⟨200⟩, none, none⟩, true⟩
    threePointOhBeta := true }

/-- The configuration of the C9 witness: a well-formed topic ID. -/
def c9SubCfg : servicebus.SubscriptionConfig :=
  ⟨(parse.NewTopicID (strL "sub0") (strL "rg1") (strL "ns1") (strL "t1")).ID,
   strL "s1", [], [], []⟩

/-- The oracle of the C8 witness: the GET fails with a 404 response. -/
def c8Env : servicebus.SubscriptionReadEnv :=
  ⟨⟨⟨404⟩, none, some (strL "entity not found")⟩, true⟩

/-- The stored state of the C8 witness: a well-formed subscription ID. -/
def c8D : ResourceData :=
  ⟨(parse.NewSubscriptionID (strL "sub0") (strL "rg1") (strL "ns1") (strL "t1")
    (strL "s1")).ID, false⟩

/-- The oracle of the C1 counterexample: the subscription GET fails with a
404 response. -/
def c1Env : servicebus.SubscriptionReadEnv :=
  ⟨⟨⟨404⟩, none, some (strL "NotFound: the entity does not exist")⟩, true⟩

/-- The stored state of the C1 counterexample: a well-formed subscription
ID. -/
def c1D : ResourceData :=
  ⟨(parse.NewSubscriptionID (strL "sub0") (strL "rg1") (strL "ns1") (strL "t1")
    (strL "s1")).ID, false⟩

/-- The oracle of the C1 amended-claim witness: the Delete call fails with a
non-404 error. -/
def c1DelEnv : servicebus.SubscriptionDeleteEnv :=
  ⟨⟨⟨500⟩, (), some (strL "InternalServerError")⟩⟩


/-!
# Verification of the terraform-provider-azurerm excerpt

A shallow embedding, in Lean 4, of the resource handlers, the storage
accounts cache and the resource-ID parsing of the repository excerpt, with
theorems settling the behavioural claims about them.

Go strings are embedded as `List Char`; Go's `(value, err)` returns become
explicit result structures; the remote SDK is an oracle: each handler takes a
record holding the results the SDK calls would produce on this run, and the
handler is a pure function of that record and of the current state.
-/

namespace GoStrings

theorem splitOnSlash_ne_nil (s : Str) : splitOnSlash s ≠ [] := by
  induction s with
  | nil => simp [splitOnSlash]
  | cons c rest ih =>
    simp only [splitOnSlash]
    split <;> split <;> simp

theorem splitOnSlash_no_slash (s : Str) (h : '/' ∉ s) : splitOnSlash s = [s] := by
  induction s with
  | nil => rfl
  | cons c rest ih =>
    simp only [List.mem_cons, not_or] at h
    have hc : ¬ c = '/' := fun e => h.1 e.symm
    simp only [splitOnSlash, ih h.2]
    simp [if_neg hc]

theorem splitOnSlash_append (a t : Str) (h : '/' ∉ a) :
    splitOnSlash (a ++ '/' :: t) = a :: splitOnSlash t := by
  induction a with
  | nil =>
    simp only [List.nil_append, splitOnSlash]
    rcases h2 : splitOnSlash t with _ | ⟨s, ss⟩
    · exact absurd h2 (splitOnSlash_ne_nil t)
    · simp
  | cons c rest ih =>
    simp only [List.mem_cons, not_or] at h
    have hc : ¬ c = '/' := fun e => h.1 e.symm
    have ih2 := ih h.2
    simp only [List.cons_append, splitOnSlash, List.append_eq]
    rw [ih2]
    simp [if_neg hc]

/-- The `/`-join of slash-free segments splits back to those segments. -/
theorem splitOnSlash_joinSegs (segs : List Str) (hne : segs ≠ [])
    (h : ∀ seg ∈ segs, '/' ∉ seg) :
    splitOnSlash (joinSegs segs) = segs := by
  induction segs with
  | nil => exact absurd rfl hne
  | cons s rest ih =>
    match rest with
    | [] => exact splitOnSlash_no_slash s (h s (by simp))
    | r :: rs =>
      have hs : '/' ∉ s := h s (by simp)
      have : joinSegs (s :: r :: rs) = s ++ '/' :: joinSegs (r :: rs) := rfl
      rw [this, splitOnSlash_append s _ hs, ih (by simp) ?_]
      intro seg hseg
      exact h seg (List.mem_cons_of_mem s hseg)

end GoStrings

namespace parse

theorem matchSegs_fillSegs (p : List SegPat) (vs : List Str)
    (harity : numVals p = vs.length) (hne : ∀ v ∈ vs, v ≠ []) :
    matchSegs p (fillSegs p vs) = some vs := by
  induction p generalizing vs with
  | nil =>
    cases vs with
    | nil => rfl
    | cons v vs' => simp [numVals] at harity
  | cons pat ps ih =>
    cases pat with
    | lit s =>
      simp only [fillSegs, matchSegs, if_pos rfl]
      exact ih vs harity hne
    | val =>
      cases vs with
      | nil => simp [numVals] at harity
      | cons v vs' =>
        have hv : ¬ v = [] := hne v (by simp)
        simp only [fillSegs, matchSegs, if_neg hv]
        rw [ih vs' (by simpa [numVals] using harity)
          (fun w hw => hne w (List.mem_cons_of_mem v hw))]
        rfl

theorem fillSegs_no_slash (p : List SegPat) (vs : List Str)
    (hlits : ∀ s, SegPat.lit s ∈ p → '/' ∉ s) (hvs : ∀ v ∈ vs, '/' ∉ v) :
    ∀ seg ∈ fillSegs p vs, '/' ∉ seg := by
  induction p generalizing vs with
  | nil => simp [fillSegs]
  | cons pat ps ih =>
    cases pat with
    | lit s =>
      intro seg hseg
      rcases List.mem_cons.mp hseg with h | h
      · exact h ▸ hlits s (by simp)
      · exact ih vs (fun t ht => hlits t (List.mem_cons_of_mem _ ht)) hvs seg h
    | val =>
      cases vs with
      | nil => simp [fillSegs]
      | cons v vs' =>
        intro seg hseg
        rcases List.mem_cons.mp hseg with h | h
        · exact h ▸ hvs v (by simp)
        · exact ih vs' (fun t ht => hlits t (List.mem_cons_of_mem _ ht))
            (fun w hw => hvs w (List.mem_cons_of_mem v hw)) seg h

/-- Round trip for one pattern: formatting values into an ID string and
splitting it back recovers exactly the filled segments. -/
theorem split_join_fill (p : List SegPat) (vs : List Str) (s0 : Str) (ps : List SegPat)
    (hp : p = .lit s0 :: ps)
    (hlits : ∀ s, SegPat.lit s ∈ p → '/' ∉ s) (hvs : ∀ v ∈ vs, '/' ∉ v) :
    splitOnSlash (joinSegs (fillSegs p vs)) = fillSegs p vs := by
  apply splitOnSlash_joinSegs
  · rw [hp]; simp [fillSegs]
  · exact fillSegs_no_slash p vs hlits hvs

end parse

example :
    parse.SubscriptionID ("/subscriptions/s1/resourceGroups/g1/providers/Microsoft.ServiceBus/namespaces/n1/topics/t1/subscriptions/x1".toList)
      = .ok (parse.NewSubscriptionID "s1".toList "g1".toList "n1".toList "t1".toList "x1".toList) := by
  rfl

example :
    (parse.NewSubscriptionID "s1".toList "g1".toList "n1".toList "t1".toList "x1".toList).ID
      = "/subscriptions/s1/resourceGroups/g1/providers/Microsoft.ServiceBus/namespaces/n1/topics/t1/subscriptions/x1".toList := by
  rfl

/-!
## Claims
-/

/-- C5: Every resource definition in these files registers the same default
operation timeouts — 30 minutes for create, 5 minutes for read, 30 minutes
for update and 30 minutes for delete — and the per-resource documentation
states the same defaults. -/
theorem claim_C5_default_timeouts :
    servicebus.resourceServiceBusSubscription.Timeouts =
      ⟨some (30 * timeMinute), some (5 * timeMinute),
       some (30 * timeMinute), some (30 * timeMinute)⟩ ∧
    servicebus.resourceServiceBusNamespaceAuthorizationRule.Timeouts =
      ⟨some (30 * timeMinute), some (5 * timeMinute),
       some (30 * timeMinute), some (30 * timeMinute)⟩ ∧
    servicebus.resourceServiceBusTopicAuthorizationRule.Timeouts =
      ⟨some (30 * timeMinute), some (5 * timeMinute),
       some (30 * timeMinute), some (30 * timeMinute)⟩ ∧
    appservice.linuxFunctionAppOnContainerTimeouts =
      ⟨30 * timeMinute, 5 * timeMinute, 30 * timeMinute, 30 * timeMinute⟩ ∧
    appservice.linuxFunctionAppOnContainerDocTimeoutsMinutes.1 * timeMinute =
      appservice.linuxFunctionAppOnContainerTimeouts.create ∧
    appservice.linuxFunctionAppOnContainerDocTimeoutsMinutes.2.1 * timeMinute =
      appservice.linuxFunctionAppOnContainerTimeouts.read ∧
    appservice.linuxFunctionAppOnContainerDocTimeoutsMinutes.2.2.1 * timeMinute =
      appservice.linuxFunctionAppOnContainerTimeouts.update ∧
    appservice.linuxFunctionAppOnContainerDocTimeoutsMinutes.2.2.2 * timeMinute =
      appservice.linuxFunctionAppOnContainerTimeouts.delete := by
  refine ⟨rfl, rfl, rfl, rfl, rfl, rfl, rfl, rfl⟩

/-- C4: each of the three ServiceBus resources registers an importer whose
validation function accepts an ID string exactly when the resource's own ID
parse function (the one used by Read and Delete) returns no error on it. -/
theorem claim_C4_importer_accepts_iff_parses :
    (∀ id : Str, servicebus.resourceServiceBusSubscription.importerValidate id = none ↔
      ∃ v, parse.SubscriptionID id = .ok v) ∧
    (∀ id : Str,
      servicebus.resourceServiceBusNamespaceAuthorizationRule.importerValidate id = none ↔
      ∃ v, parse.NamespaceAuthorizationRuleID id = .ok v) ∧
    (∀ id : Str,
      servicebus.resourceServiceBusTopicAuthorizationRule.importerValidate id = none ↔
      ∃ v, parse.TopicAuthorizationRuleID id = .ok v) := by
  refine ⟨fun id => ?_, fun id => ?_, fun id => ?_⟩
  · show servicebus.parseErr (parse.SubscriptionID id) = none ↔ _
    cases h : parse.SubscriptionID id <;> simp [servicebus.parseErr]
  · show servicebus.parseErr (parse.NamespaceAuthorizationRuleID id) = none ↔ _
    cases h : parse.NamespaceAuthorizationRuleID id <;> simp [servicebus.parseErr]
  · show servicebus.parseErr (parse.TopicAuthorizationRuleID id) = none ↔ _
    cases h : parse.TopicAuthorizationRuleID id <;> simp [servicebus.parseErr]

namespace parse

theorem lit_no_slash_of_all (p : List SegPat) (hb : p.all litNoSlash = true) :
    ∀ s, SegPat.lit s ∈ p → '/' ∉ s := by
  intro s hs
  exact of_decide_eq_true (List.all_eq_true.mp hb _ hs)

/-- Parsing the formatted segments of one pattern recovers the values. -/
theorem matchSegs_round (p : List SegPat) (vs : List Str) (s0 : Str) (ps : List SegPat)
    (hp : p = .lit s0 :: ps) (hlits : ∀ s, SegPat.lit s ∈ p → '/' ∉ s)
    (harity : numVals p = vs.length)
    (hvs_ne : ∀ v ∈ vs, v ≠ []) (hvs_slash : ∀ v ∈ vs, '/' ∉ v) :
    matchSegs p (splitOnSlash (joinSegs (fillSegs p vs))) = some vs := by
  rw [split_join_fill p vs s0 ps hp hlits hvs_slash]
  exact matchSegs_fillSegs p vs harity hvs_ne

end parse

/-- C3: ID addressing round-trips for every ServiceBus resource: the ID
string stored by a successful create (`d.SetId(resourceId.ID())`) is
accepted by the parse function used by Read and Delete, and parsing recovers
exactly the subscription, resource group, namespace, (topic,) and name
components it was built from — for any components that are nonempty and
slash-free (the character set admitted by Azure resource names). -/
theorem claim_C3_id_round_trip :
    (∀ sub rg ns topic name : Str,
      (∀ v ∈ [sub, rg, ns, topic, name], v ≠ [] ∧ '/' ∉ v) →
      parse.SubscriptionID (parse.NewSubscriptionID sub rg ns topic name).ID =
        .ok (parse.NewSubscriptionID sub rg ns topic name)) ∧
    (∀ sub rg ns name : Str,
      (∀ v ∈ [sub, rg, ns, name], v ≠ [] ∧ '/' ∉ v) →
      parse.NamespaceAuthorizationRuleID
        (parse.NewNamespaceAuthorizationRuleID sub rg ns name).ID =
        .ok (parse.NewNamespaceAuthorizationRuleID sub rg ns name)) ∧
    (∀ sub rg ns topic name : Str,
      (∀ v ∈ [sub, rg, ns, topic, name], v ≠ [] ∧ '/' ∉ v) →
      parse.TopicAuthorizationRuleID
        (parse.NewTopicAuthorizationRuleID sub rg ns topic name).ID =
        .ok (parse.NewTopicAuthorizationRuleID sub rg ns topic name)) := by
  refine ⟨fun sub rg ns topic name h => ?_, fun sub rg ns name h => ?_,
    fun sub rg ns topic name h => ?_⟩
  · have hr := parse.matchSegs_round parse.subscriptionIdPattern [sub, rg, ns, topic, name]
      [] (parse.subscriptionIdPattern.tail) rfl
      (parse.lit_no_slash_of_all _ (by decide)) rfl
      (fun v hv => (h v hv).1) (fun v hv => (h v hv).2)
    simp only [parse.SubscriptionID, parse.NewSubscriptionID, parse.SubscriptionId.ID]
    rw [hr]
  · have hr := parse.matchSegs_round parse.namespaceAuthorizationRuleIdPattern
      [sub, rg, ns, name]
      [] (parse.namespaceAuthorizationRuleIdPattern.tail) rfl
      (parse.lit_no_slash_of_all _ (by decide)) rfl
      (fun v hv => (h v hv).1) (fun v hv => (h v hv).2)
    simp only [parse.NamespaceAuthorizationRuleID, parse.NewNamespaceAuthorizationRuleID,
      parse.NamespaceAuthorizationRuleId.ID]
    rw [hr]
  · have hr := parse.matchSegs_round parse.topicAuthorizationRuleIdPattern
      [sub, rg, ns, topic, name]
      [] (parse.topicAuthorizationRuleIdPattern.tail) rfl
      (parse.lit_no_slash_of_all _ (by decide)) rfl
      (fun v hv => (h v hv).1) (fun v hv => (h v hv).2)
    simp only [parse.TopicAuthorizationRuleID, parse.NewTopicAuthorizationRuleID,
      parse.TopicAuthorizationRuleId.ID]
    rw [hr]

/-- Witness for C3 at concrete components. -/
theorem claim_C3_id_round_trip_witness :
    parse.SubscriptionID
      (parse.NewSubscriptionID (strL "sub0") (strL "group1") (strL "ns1")
        (strL "topic1") (strL "reader")).ID =
      .ok (parse.NewSubscriptionID (strL "sub0") (strL "group1") (strL "ns1")
        (strL "topic1") (strL "reader")) :=
  claim_C3_id_round_trip.1 _ _ _ _ _ (by decide)

/-- C2 counterexample: no single mutex guards every access to
`storageAccountsCache` — the force-cache write in `accountDetails.AccountKey`
(line 67) holds only `credentialsLock` while every other access holds only
`accountsLock` — and that write races (disjoint lock sets, at least one
writer) with the insertion in `AddToCache`. -/
theorem claim_C2_counterexample :
    (¬ ∃ m : storage.LockName, ∀ a ∈ storage.storageAccountsCacheAccesses,
      m ∈ a.locksHeld) ∧
    storage.racy ⟨"AccountKey", 67, .writeOp, [.credentialsLock]⟩
      ⟨"AddToCache", 123, .writeOp, [.accountsLock]⟩ = true := by
  constructor
  · rintro ⟨m, h⟩
    have h1 := h ⟨"AccountKey", 67, .writeOp, [.credentialsLock]⟩ (by simp [storage.storageAccountsCacheAccesses])
    have h2 := h ⟨"AddToCache", 123, .writeOp, [.accountsLock]⟩ (by simp [storage.storageAccountsCacheAccesses])
    cases m <;> simp_all
  · rfl

/-- C2 as amended: every access to `storageAccountsCache` from `FindAccount`,
`AddToCache` and `RemoveAccountFromCache` is performed holding `accountsLock`
(so those operations are pairwise mutually exclusive and race-free), but the
insertion in `accountDetails.AccountKey` is performed holding only
`credentialsLock`, so it is not mutually exclusive with any of the other
operations' accesses. -/
theorem claim_C2_lock_discipline :
    (∀ a ∈ storage.storageAccountsCacheAccesses, a.fn ≠ "AccountKey" →
      a.locksHeld = [storage.LockName.accountsLock]) ∧
    (∀ a ∈ storage.storageAccountsCacheAccesses, a.fn = "AccountKey" →
      a.locksHeld = [storage.LockName.credentialsLock]) ∧
    (∀ a ∈ storage.storageAccountsCacheAccesses,
      ∀ b ∈ storage.storageAccountsCacheAccesses,
      a.fn ≠ "AccountKey" → b.fn ≠ "AccountKey" → storage.racy a b = false) ∧
    (∀ a ∈ storage.storageAccountsCacheAccesses,
      ∀ b ∈ storage.storageAccountsCacheAccesses,
      a.fn = "AccountKey" → b.fn ≠ "AccountKey" → b.op ≠ storage.MapOp.readOp →
      storage.racy a b = true) := by
  refine ⟨?_, ?_, ?_, ?_⟩ <;> decide

/-- Witness for the amended C2 at the `FindAccount`/`AddToCache` pair. -/
theorem claim_C2_lock_discipline_witness :
    storage.racy ⟨"FindAccount", 166, .writeOp, [.accountsLock]⟩
      ⟨"AddToCache", 123, .writeOp, [.accountsLock]⟩ = false :=
  claim_C2_lock_discipline.2.2.1
    ⟨"FindAccount", 166, .writeOp, [.accountsLock]⟩ (by decide)
    ⟨"AddToCache", 123, .writeOp, [.accountsLock]⟩ (by decide)
    (by decide) (by decide)

namespace storage

theorem mapLookup_mapInsert_self (m : Cache) (k : Str) (v : accountDetails) :
    mapLookup (mapInsert m k v) k = some v := by
  induction m with
  | nil => simp [mapInsert, mapLookup]
  | cons kv rest ih =>
    obtain ⟨k', v'⟩ := kv
    by_cases h : k' = k
    · simp [mapInsert, mapLookup, h]
    · simp [mapInsert, mapLookup, h, ih]

theorem FindAccount_hit (cache : Cache) (env : FindAccountEnv) (name : Str)
    (ad : accountDetails) (h : mapLookup cache name = some ad) :
    FindAccount cache env name = ⟨cache, .ok (some ad), false⟩ := by
  unfold FindAccount
  rw [h]

end storage

/-- C6 counterexample: a `FindAccount` call that succeeds via a remote
lookup but finds no account (`nil, nil`) stores nothing in the cache, and a
second call with the same name performs the remote lookup again — so "after
any FindAccount call that succeeds via a remote lookup the result is stored
in the cache, so a second call with the same name returns the same result
without a further remote call" fails as stated. -/
theorem claim_C6_counterexample :
    (storage.FindAccount [] c6EmptyListEnv (strL "acct1")).result = .ok none ∧
    (storage.FindAccount [] c6EmptyListEnv (strL "acct1")).remoteCalled = true ∧
    (storage.FindAccount [] c6EmptyListEnv (strL "acct1")).cache = [] ∧
    (storage.FindAccount
      (storage.FindAccount [] c6EmptyListEnv (strL "acct1")).cache
      c6EmptyListEnv (strL "acct1")).remoteCalled = true :=
  ⟨rfl, rfl, rfl, rfl⟩

/-- C6 as amended: `FindAccount` returns the cached entry without any remote
call when the name is cached; when a `FindAccount` call succeeds *finding an
account*, that account is in the resulting cache, and a second call with the
same name returns the same details without a further remote call; and when
`AccountKey` succeeds via a remote lookup the key is memoized and
force-cached, and a second call returns the same key without a further
remote call. (A successful remote `FindAccount` that finds no account caches
nothing for that name.) -/
theorem claim_C6_cache_idempotent :
    (∀ (cache : storage.Cache) (env : storage.FindAccountEnv) (name : Str)
       (ad : storage.accountDetails),
      storage.mapLookup cache name = some ad →
      storage.FindAccount cache env name = ⟨cache, .ok (some ad), false⟩) ∧
    (∀ (cache : storage.Cache) (env : storage.FindAccountEnv) (name : Str)
       (ad : storage.accountDetails),
      (storage.FindAccount cache env name).result = .ok (some ad) →
      ∀ env2 : storage.FindAccountEnv,
        storage.FindAccount (storage.FindAccount cache env name).cache env2 name =
          ⟨(storage.FindAccount cache env name).cache, .ok (some ad), false⟩) ∧
    (∀ (ad : storage.accountDetails) (cache : storage.Cache)
       (env : storage.AccountKeyEnv) (v : Str),
      ad.accountKey = none →
      (storage.AccountKey ad cache env).result = .ok v →
      storage.mapLookup (storage.AccountKey ad cache env).cache ad.name =
        some (storage.AccountKey ad cache env).ad) ∧
    (∀ (ad : storage.accountDetails) (cache : storage.Cache)
       (env : storage.AccountKeyEnv) (v : Str),
      (storage.AccountKey ad cache env).result = .ok v →
      ∀ env2 : storage.AccountKeyEnv,
        storage.AccountKey (storage.AccountKey ad cache env).ad
            (storage.AccountKey ad cache env).cache env2 =
          ⟨(storage.AccountKey ad cache env).ad,
           (storage.AccountKey ad cache env).cache, .ok v, false⟩) := by
  refine ⟨storage.FindAccount_hit, ?_, ?_, ?_⟩
  · intro cache env name ad hres env2
    cases hlook : storage.mapLookup cache name with
    | some existing =>
      simp only [storage.FindAccount, hlook, Except.ok.injEq, Option.some.injEq] at hres
      simp only [storage.FindAccount, hlook]
      rw [hres]
    | none =>
      cases hlist : env.list with
      | error e => simp [storage.FindAccount, hlook, hlist] at hres
      | ok accounts =>
        cases hins : storage.insertAccounts cache accounts with
        | error pe =>
          obtain ⟨c, e⟩ := pe
          simp [storage.FindAccount, hlook, hlist, hins] at hres
        | ok cache2 =>
          simp only [storage.FindAccount, hlook, hlist, hins, Except.ok.injEq] at hres
          simp only [storage.FindAccount, hlook, hlist, hins]
          exact storage.FindAccount_hit _ _ _ _ hres
  · intro ad cache env v hkey hres
    cases hlist : env.listKeys with
    | error e => simp [storage.AccountKey, hkey, hlist] at hres
    | ok keys =>
      match keys with
      | none => simp [storage.AccountKey, hkey, hlist] at hres
      | some [] => simp [storage.AccountKey, hkey, hlist] at hres
      | some (none :: _) => simp [storage.AccountKey, hkey, hlist] at hres
      | some (some w :: _) =>
        simp only [storage.AccountKey, hkey, hlist]
        exact storage.mapLookup_mapInsert_self _ _ _
  · intro ad cache env v hres env2
    cases hkey : ad.accountKey with
    | some k =>
      simp only [storage.AccountKey, hkey, Except.ok.injEq] at hres
      simp only [storage.AccountKey, hkey, hres]
    | none =>
      cases hlist : env.listKeys with
      | error e => simp [storage.AccountKey, hkey, hlist] at hres
      | ok keys =>
        match keys with
        | none => simp [storage.AccountKey, hkey, hlist] at hres
        | some [] => simp [storage.AccountKey, hkey, hlist] at hres
        | some (none :: _) => simp [storage.AccountKey, hkey, hlist] at hres
        | some (some w :: rest) =>
          simp only [storage.AccountKey, hkey, hlist, Except.ok.injEq] at hres
          simp only [storage.AccountKey, hkey, hlist]
          simp [hres]

/-- Witness for the amended C6: a concrete cache hit is returned without a
remote call. -/
theorem claim_C6_cache_idempotent_witness :
    storage.FindAccount
        [(strL "acct1", ⟨strL "id1", strL "StorageV2", none, strL "rg1", none, none, strL "acct1"⟩)]
        c6EmptyListEnv (strL "acct1") =
      ⟨[(strL "acct1", ⟨strL "id1", strL "StorageV2", none, strL "rg1", none, none, strL "acct1"⟩)],
       .ok (some ⟨strL "id1", strL "StorageV2", none, strL "rg1", none, none, strL "acct1"⟩),
       false⟩ :=
  claim_C6_cache_idempotent.1 _ c6EmptyListEnv _ _ (by decide)

namespace appservice

theorem strMapLookup_strMapInsert (m : List (Str × Str)) (k v k' : Str) :
    strMapLookup (strMapInsert m k v) k' =
      if k = k' then some v else strMapLookup m k' := by
  induction m with
  | nil => simp [strMapInsert, strMapLookup]
  | cons p rest ih =>
    obtain ⟨a, b⟩ := p
    simp only [strMapInsert, strMapLookup]
    by_cases hak : a = k
    · subst hak
      simp only [if_pos rfl, strMapLookup]
      by_cases h : a = k' <;> simp [strMapLookup, h]
    · simp only [if_neg hak, strMapLookup]
      by_cases h : a = k'
      · subst h
        simp [if_neg (show ¬ k = a from fun hh => hak hh.symm)]
      · simp [h, ih]

theorem unpackApplyEntry_appSettings_reserved (st : UnpackState) (k : Str) (v : Option Str)
    (h : k ∈ reservedAppSettingKeys) :
    (unpackApplyEntry st k v).appSettings = st.appSettings := by
  simp only [reservedAppSettingKeys, List.mem_cons, List.not_mem_nil, or_false] at h
  unfold unpackApplyEntry
  rcases h with h | h | h | h | h | h <;> subst h
  · rw [if_pos rfl]
  · rw [if_neg (by decide), if_pos rfl]
  · rw [if_neg (by decide), if_neg (by decide), if_pos rfl]
  · rw [if_neg (by decide), if_neg (by decide), if_neg (by decide), if_pos rfl]
  · rw [if_neg (by decide), if_neg (by decide), if_neg (by decide), if_neg (by decide),
      if_pos rfl]
  · rw [if_neg (by decide), if_neg (by decide), if_neg (by decide), if_neg (by decide),
      if_neg (by decide), if_pos rfl]
    cases v with
    | none => rfl
    | some s =>
      by_cases hp : hasPrefix s (strL "@Microsoft.KeyVault") <;> simp [hp]

theorem unpackApplyEntry_appSettings_plain (st : UnpackState) (k : Str) (v : Option Str)
    (h : k ∉ reservedAppSettingKeys) :
    (unpackApplyEntry st k v).appSettings =
      strMapInsert st.appSettings k (NormalizeNilableString v) := by
  simp only [reservedAppSettingKeys, List.mem_cons, List.not_mem_nil, or_false,
    not_or] at h
  obtain ⟨h1, h2, h3, h4, h5, h6⟩ := h
  unfold unpackApplyEntry
  rw [if_neg h1, if_neg h2, if_neg h3, if_neg h4, if_neg h5, if_neg h6]

theorem unpackApplyEntry_BuiltinLogging (st : UnpackState) (k : Str) (v : Option Str) :
    (unpackApplyEntry st k v).m.BuiltinLogging = st.m.BuiltinLogging := by
  unfold unpackApplyEntry
  split_ifs with h1 h2 h3 h4 h5 h6
  · rfl
  · rfl
  · rfl
  · rfl
  · rfl
  · cases v with
    | none => rfl
    | some s =>
      by_cases hp : hasPrefix s (strL "@Microsoft.KeyVault") <;> simp [hp]
  · rfl

theorem unpackApplyEntry_KVSecret_other (st : UnpackState) (k : Str) (v : Option Str)
    (h : k ≠ strL "AzureWebJobsStorage") :
    (unpackApplyEntry st k v).m.StorageKeyVaultSecretID =
      st.m.StorageKeyVaultSecretID := by
  unfold unpackApplyEntry
  split_ifs with h1 h2 h3 h4 h5
  all_goals rfl

theorem unpackApplyEntry_KVSecret_kv (st : UnpackState) (s : Str)
    (hp : hasPrefix s (strL "@Microsoft.KeyVault") = true) :
    (unpackApplyEntry st (strL "AzureWebJobsStorage") (some s)).m.StorageKeyVaultSecretID =
      trimPrefix (trimSuffix s (strL ")")) (strL "@Microsoft.KeyVault(SecretUri=") := by
  unfold unpackApplyEntry
  rw [if_neg (by decide), if_neg (by decide), if_neg (by decide), if_neg (by decide),
    if_neg (by decide), if_pos rfl]
  simp [hp]

theorem unpackLoop_lookup_of_not_mem (entries : List (Str × Option Str))
    (st : UnpackState) (k : Str) (hk : ∀ p ∈ entries, p.1 ≠ k) :
    strMapLookup (unpackLoop st entries).appSettings k =
      strMapLookup st.appSettings k := by
  induction entries generalizing st with
  | nil => rfl
  | cons p rest ih =>
    obtain ⟨k', v'⟩ := p
    have hk' : k' ≠ k := hk (k', v') (by simp)
    have step : unpackLoop st ((k', v') :: rest) =
        unpackLoop (unpackApplyEntry st k' v') rest := rfl
    rw [step, ih _ (fun q hq => hk q (List.mem_cons_of_mem _ hq))]
    by_cases hres : k' ∈ reservedAppSettingKeys
    · rw [unpackApplyEntry_appSettings_reserved st k' v' hres]
    · rw [unpackApplyEntry_appSettings_plain st k' v' hres,
        strMapLookup_strMapInsert, if_neg hk']

theorem unpackLoop_lookup_of_mem (entries : List (Str × Option Str))
    (st : UnpackState) (k : Str) (v : Option Str)
    (hmem : (k, v) ∈ entries) (hres : k ∉ reservedAppSettingKeys)
    (hnd : (entries.map Prod.fst).Nodup) :
    strMapLookup (unpackLoop st entries).appSettings k =
      some (NormalizeNilableString v) := by
  induction entries generalizing st with
  | nil => cases hmem
  | cons p rest ih =>
    obtain ⟨k', v'⟩ := p
    have step : unpackLoop st ((k', v') :: rest) =
        unpackLoop (unpackApplyEntry st k' v') rest := rfl
    have hnd2 := List.nodup_cons.mp hnd
    rcases List.mem_cons.mp hmem with heq | hmem'
    · injection heq with hkk hvv
      subst hkk
      subst hvv
      have hnotin : ∀ q ∈ rest, q.1 ≠ k := by
        intro q hq hqk
        have hm : q.1 ∈ rest.map Prod.fst := List.mem_map_of_mem Prod.fst hq
        rw [hqk] at hm
        exact hnd2.1 hm
      rw [step, unpackLoop_lookup_of_not_mem rest _ k hnotin,
        unpackApplyEntry_appSettings_plain st k v hres,
        strMapLookup_strMapInsert, if_pos rfl]
    · rw [step]
      exact ih _ hmem' hnd2.2

theorem unpackLoop_reserved_none (entries : List (Str × Option Str))
    (st : UnpackState) (k : Str) (hres : k ∈ reservedAppSettingKeys)
    (h0 : strMapLookup st.appSettings k = none) :
    strMapLookup (unpackLoop st entries).appSettings k = none := by
  induction entries generalizing st with
  | nil => exact h0
  | cons p rest ih =>
    obtain ⟨k', v'⟩ := p
    have step : unpackLoop st ((k', v') :: rest) =
        unpackLoop (unpackApplyEntry st k' v') rest := rfl
    rw [step]
    apply ih
    by_cases hres' : k' ∈ reservedAppSettingKeys
    · rw [unpackApplyEntry_appSettings_reserved st k' v' hres']
      exact h0
    · rw [unpackApplyEntry_appSettings_plain st k' v' hres',
        strMapLookup_strMapInsert, if_neg (fun h => hres' (by rw [h]; exact hres))]
      exact h0

theorem unpackLoop_BuiltinLogging (entries : List (Str × Option Str))
    (st : UnpackState) :
    (unpackLoop st entries).m.BuiltinLogging = st.m.BuiltinLogging := by
  induction entries generalizing st with
  | nil => rfl
  | cons p rest ih =>
    obtain ⟨k', v'⟩ := p
    have step : unpackLoop st ((k', v') :: rest) =
        unpackLoop (unpackApplyEntry st k' v') rest := rfl
    rw [step, ih _, unpackApplyEntry_BuiltinLogging]

theorem unpackLoop_KVSecret_of_not_mem (entries : List (Str × Option Str))
    (st : UnpackState) (hk : ∀ p ∈ entries, p.1 ≠ strL "AzureWebJobsStorage") :
    (unpackLoop st entries).m.StorageKeyVaultSecretID =
      st.m.StorageKeyVaultSecretID := by
  induction entries generalizing st with
  | nil => rfl
  | cons p rest ih =>
    obtain ⟨k', v'⟩ := p
    have step : unpackLoop st ((k', v') :: rest) =
        unpackLoop (unpackApplyEntry st k' v') rest := rfl
    rw [step, ih _ (fun q hq => hk q (List.mem_cons_of_mem _ hq)),
      unpackApplyEntry_KVSecret_other st k' v' (hk (k', v') (by simp))]

theorem unpackLoop_KVSecret_of_mem (entries : List (Str × Option Str))
    (st : UnpackState) (s : Str)
    (hmem : (strL "AzureWebJobsStorage", some s) ∈ entries)
    (hp : hasPrefix s (strL "@Microsoft.KeyVault") = true)
    (hnd : (entries.map Prod.fst).Nodup) :
    (unpackLoop st entries).m.StorageKeyVaultSecretID =
      trimPrefix (trimSuffix s (strL ")")) (strL "@Microsoft.KeyVault(SecretUri=") := by
  induction entries generalizing st with
  | nil => cases hmem
  | cons p rest ih =>
    obtain ⟨k', v'⟩ := p
    have step : unpackLoop st ((k', v') :: rest) =
        unpackLoop (unpackApplyEntry st k' v') rest := rfl
    have hnd2 := List.nodup_cons.mp hnd
    rcases List.mem_cons.mp hmem with heq | hmem'
    · injection heq with hkk hvv
      subst hkk
      subst hvv
      have hnotin : ∀ q ∈ rest, q.1 ≠ strL "AzureWebJobsStorage" := by
        intro q hq hqk
        have hm : q.1 ∈ rest.map Prod.fst := List.mem_map_of_mem Prod.fst hq
        rw [hqk] at hm
        exact hnd2.1 hm
      rw [step, unpackLoop_KVSecret_of_not_mem rest _ hnotin,
        unpackApplyEntry_KVSecret_kv st s hp]
    · rw [step]
      exact ih _ hmem' hnd2.2

end appservice

/-- C10: `unpackLinuxFunctionAppOnContainerAppSettings` partitions the app
settings deterministically: for every input dictionary (with map-unique
keys), the reserved keys never appear in the resulting `AppSettings` map; an
`AzureWebJobsStorage` value prefixed with `@Microsoft.KeyVault` is decoded
into `StorageKeyVaultSecretID` by stripping the
`@Microsoft.KeyVault(SecretUri=` prefix and `)` suffix; every other key is
copied through with its (nil-normalized) value; and `BuiltinLogging` is left
false. -/
theorem claim_C10_unpack_app_settings :
    ∀ (m : appservice.LinuxFunctionAppOnContainerModel)
      (props : List (Str × Option Str)),
      (props.map Prod.fst).Nodup →
      (∀ k ∈ appservice.reservedAppSettingKeys,
        appservice.strMapLookup
          (appservice.unpackLinuxFunctionAppOnContainerAppSettings m
            ⟨some props⟩).AppSettings k = none) ∧
      (∀ (k : Str) (v : Option Str), (k, v) ∈ props →
        k ∉ appservice.reservedAppSettingKeys →
        appservice.strMapLookup
          (appservice.unpackLinuxFunctionAppOnContainerAppSettings m
            ⟨some props⟩).AppSettings k =
          some (appservice.NormalizeNilableString v)) ∧
      (∀ s : Str, (strL "AzureWebJobsStorage", some s) ∈ props →
        hasPrefix s (strL "@Microsoft.KeyVault") = true →
        (appservice.unpackLinuxFunctionAppOnContainerAppSettings m
          ⟨some props⟩).StorageKeyVaultSecretID =
          trimPrefix (trimSuffix s (strL ")")) (strL "@Microsoft.KeyVault(SecretUri=")) ∧
      (appservice.unpackLinuxFunctionAppOnContainerAppSettings m
        ⟨some props⟩).BuiltinLogging = false := by
  intro m props hnd
  simp only [appservice.unpackLinuxFunctionAppOnContainerAppSettings]
  refine ⟨?_, ?_, ?_, ?_⟩
  · intro k hk
    exact appservice.unpackLoop_reserved_none props _ k hk rfl
  · intro k v hmem hres
    exact appservice.unpackLoop_lookup_of_mem props _ k v hmem hres hnd
  · intro s hmem hp
    exact appservice.unpackLoop_KVSecret_of_mem props _ s hmem hp hnd
  · exact appservice.unpackLoop_BuiltinLogging props _

/-- Witness for C10 at a concrete dictionary. -/
theorem claim_C10_unpack_app_settings_witness :
    (appservice.unpackLinuxFunctionAppOnContainerAppSettings c10M
      ⟨some c10Props⟩).BuiltinLogging = false ∧
    appservice.strMapLookup
      (appservice.unpackLinuxFunctionAppOnContainerAppSettings c10M
        ⟨some c10Props⟩).AppSettings (strL "custom_setting") = some (strL "x") :=
  ⟨(claim_C10_unpack_app_settings c10M c10Props (by decide)).2.2.2,
   (claim_C10_unpack_app_settings c10M c10Props (by decide)).2.1
     (strL "custom_setting") (some (strL "x")) (by decide) (by decide)⟩

/-- C7: long-running operations complete before the handler returns. The
containerized Linux Function App create and update handlers return success
only after the SDK future's wait-for-completion succeeded, and the
ServiceBus authorization-rule create and delete handlers return success only
after the paired-namespace replication wait succeeded; whenever the wait
fails, the handler returns an error. -/
theorem claim_C7_wait_for_completion :
    (∀ (env : appservice.LinuxFunctionAppCreateEnv)
       (cfg : appservice.LinuxFunctionAppOnContainerConfig) (subId : Str)
       (d : ResourceData),
      ((appservice.linuxFunctionAppOnContainerCreate env cfg subId d).result = .ok () →
        env.waitFuture = none ∧
        Act.callWaitFuture ∈
          (appservice.linuxFunctionAppOnContainerCreate env cfg subId d).trace) ∧
      (∀ e : Str, env.waitFuture = some e →
        (appservice.linuxFunctionAppOnContainerCreate env cfg subId d).result ≠ .ok ())) ∧
    (∀ (env : appservice.LinuxFunctionAppUpdateEnv) (d : ResourceData),
      ((appservice.linuxFunctionAppOnContainerUpdate env d).result = .ok () →
        env.waitFuture = none ∧
        Act.callWaitFuture ∈ (appservice.linuxFunctionAppOnContainerUpdate env d).trace) ∧
      (∀ e : Str, env.waitFuture = some e →
        (appservice.linuxFunctionAppOnContainerUpdate env d).result ≠ .ok ())) ∧
    (∀ (env : servicebus.NamespaceAuthRuleCreateEnv)
       (cfg : servicebus.NamespaceAuthRuleConfig) (subId : Str) (d : ResourceData),
      ((servicebus.resourceServiceBusNamespaceAuthorizationRuleCreateUpdate
          env cfg subId d).result = .ok () →
        env.waitReplication = none ∧
        Act.callWaitReplication ∈
          (servicebus.resourceServiceBusNamespaceAuthorizationRuleCreateUpdate
            env cfg subId d).trace) ∧
      (∀ e : Str, env.waitReplication = some e →
        (servicebus.resourceServiceBusNamespaceAuthorizationRuleCreateUpdate
          env cfg subId d).result ≠ .ok ())) ∧
    (∀ (env : servicebus.NamespaceAuthRuleDeleteEnv) (d : ResourceData),
      ((servicebus.resourceServiceBusNamespaceAuthorizationRuleDelete env d).result =
          .ok () →
        env.waitReplication = none ∧
        Act.callWaitReplication ∈
          (servicebus.resourceServiceBusNamespaceAuthorizationRuleDelete env d).trace) ∧
      (∀ e : Str, env.waitReplication = some e →
        (servicebus.resourceServiceBusNamespaceAuthorizationRuleDelete env d).result ≠
          .ok ())) ∧
    (∀ (env : servicebus.TopicAuthRuleCreateEnv)
       (cfg : servicebus.TopicAuthRuleConfig) (subId : Str) (d : ResourceData),
      ((servicebus.resourceServiceBusTopicAuthorizationRuleCreateUpdate
          env cfg subId d).result = .ok () →
        env.waitReplication = none ∧
        Act.callWaitReplication ∈
          (servicebus.resourceServiceBusTopicAuthorizationRuleCreateUpdate
            env cfg subId d).trace) ∧
      (∀ e : Str, env.waitReplication = some e →
        (servicebus.resourceServiceBusTopicAuthorizationRuleCreateUpdate
          env cfg subId d).result ≠ .ok ())) ∧
    (∀ (env : servicebus.TopicAuthRuleDeleteEnv) (d : ResourceData),
      ((servicebus.resourceServiceBusTopicAuthorizationRuleDelete env d).result = .ok () →
        env.waitReplication = none ∧
        Act.callWaitReplication ∈
          (servicebus.resourceServiceBusTopicAuthorizationRuleDelete env d).trace) ∧
      (∀ e : Str, env.waitReplication = some e →
        (servicebus.resourceServiceBusTopicAuthorizationRuleDelete env d).result ≠
          .ok ())) := by
  refine ⟨fun env cfg subId d => ⟨?_, ?_⟩, fun env d => ⟨?_, ?_⟩,
    fun env cfg subId d => ⟨?_, ?_⟩, fun env d => ⟨?_, ?_⟩,
    fun env cfg subId d => ⟨?_, ?_⟩, fun env d => ⟨?_, ?_⟩⟩
  · intro hok
    unfold appservice.linuxFunctionAppOnContainerCreate at hok ⊢
    repeat' split at hok
    all_goals simp_all
  · intro e he hok
    unfold appservice.linuxFunctionAppOnContainerCreate at hok
    repeat' split at hok
    all_goals simp_all
  · intro hok
    unfold appservice.linuxFunctionAppOnContainerUpdate at hok ⊢
    repeat' split at hok
    all_goals simp_all
  · intro e he hok
    unfold appservice.linuxFunctionAppOnContainerUpdate at hok
    repeat' split at hok
    all_goals simp_all
  · intro hok
    unfold servicebus.resourceServiceBusNamespaceAuthorizationRuleCreateUpdate at hok ⊢
    repeat' split at hok
    all_goals simp_all
  · intro e he hok
    unfold servicebus.resourceServiceBusNamespaceAuthorizationRuleCreateUpdate at hok
    repeat' split at hok
    all_goals simp_all
  · intro hok
    unfold servicebus.resourceServiceBusNamespaceAuthorizationRuleDelete at hok ⊢
    repeat' split at hok
    all_goals simp_all
  · intro e he hok
    unfold servicebus.resourceServiceBusNamespaceAuthorizationRuleDelete at hok
    repeat' split at hok
    all_goals simp_all
  · intro hok
    unfold servicebus.resourceServiceBusTopicAuthorizationRuleCreateUpdate at hok ⊢
    repeat' split at hok
    all_goals simp_all
  · intro e he hok
    unfold servicebus.resourceServiceBusTopicAuthorizationRuleCreateUpdate at hok
    repeat' split at hok
    all_goals simp_all
  · intro hok
    unfold servicebus.resourceServiceBusTopicAuthorizationRuleDelete at hok ⊢
    repeat' split at hok
    all_goals simp_all
  · intro e he hok
    unfold servicebus.resourceServiceBusTopicAuthorizationRuleDelete at hok
    repeat' split at hok
    all_goals simp_all

/-- Witness for C7: with a failing wait-for-completion, the update handler
does not return success. -/
theorem claim_C7_wait_for_completion_witness :
    (appservice.linuxFunctionAppOnContainerUpdate c7UpdateEnv c7D).result ≠ .ok () :=
  claim_C7_wait_for_completion.2.1 c7UpdateEnv c7D |>.2
    (strL "context deadline exceeded") rfl

/-- C9: creation is guarded and atomic on conflict: when a new resource's
existence GET finds an existing remote resource (no error, response not
404), the create handler returns the import-as-exists /
resource-requires-import error, never calls CreateOrUpdate, and does not set
the resource ID in state (state unchanged). -/
theorem claim_C9_create_guard :
    (∀ (env : servicebus.SubscriptionCreateEnv) (cfg : servicebus.SubscriptionConfig)
       (subId : Str) (d : ResourceData),
      d.isNew = true → env.existingGet.err = none →
      ResponseWasNotFound env.existingGet.Response = false →
      (∃ idStr,
        (servicebus.resourceServiceBusSubscriptionCreateUpdate env cfg subId d).result =
          .error (tf.ImportAsExistsError (strL "azurerm_servicebus_subscription") idStr)) ∧
      Act.callCreateOrUpdate ∉
        (servicebus.resourceServiceBusSubscriptionCreateUpdate env cfg subId d).trace ∧
      (∀ s, Act.setId s ∉
        (servicebus.resourceServiceBusSubscriptionCreateUpdate env cfg subId d).trace) ∧
      (servicebus.resourceServiceBusSubscriptionCreateUpdate env cfg subId d).d = d) ∧
    (∀ (env : servicebus.NamespaceAuthRuleCreateEnv)
       (cfg : servicebus.NamespaceAuthRuleConfig) (subId : Str) (d : ResourceData),
      d.isNew = true → env.existingGet.err = none →
      ResponseWasNotFound env.existingGet.Response = false →
      (∃ idStr,
        (servicebus.resourceServiceBusNamespaceAuthorizationRuleCreateUpdate
          env cfg subId d).result =
          .error (tf.ImportAsExistsError
            (strL "azurerm_servicebus_namespace_authorization_rule") idStr)) ∧
      Act.callCreateOrUpdate ∉
        (servicebus.resourceServiceBusNamespaceAuthorizationRuleCreateUpdate
          env cfg subId d).trace ∧
      (∀ s, Act.setId s ∉
        (servicebus.resourceServiceBusNamespaceAuthorizationRuleCreateUpdate
          env cfg subId d).trace) ∧
      (servicebus.resourceServiceBusNamespaceAuthorizationRuleCreateUpdate
        env cfg subId d).d = d) ∧
    (∀ (env : servicebus.TopicAuthRuleCreateEnv)
       (cfg : servicebus.TopicAuthRuleConfig) (subId : Str) (d : ResourceData),
      d.isNew = true → env.existingGet.err = none →
      ResponseWasNotFound env.existingGet.Response = false →
      (∃ idStr,
        (servicebus.resourceServiceBusTopicAuthorizationRuleCreateUpdate
          env cfg subId d).result =
          .error (tf.ImportAsExistsError
            (strL "azurerm_servicebus_topic_authorization_rule") idStr)) ∧
      Act.callCreateOrUpdate ∉
        (servicebus.resourceServiceBusTopicAuthorizationRuleCreateUpdate
          env cfg subId d).trace ∧
      (∀ s, Act.setId s ∉
        (servicebus.resourceServiceBusTopicAuthorizationRuleCreateUpdate
          env cfg subId d).trace) ∧
      (servicebus.resourceServiceBusTopicAuthorizationRuleCreateUpdate
        env cfg subId d).d = d) ∧
    (∀ (env : appservice.LinuxFunctionAppCreateEnv)
       (cfg : appservice.LinuxFunctionAppOnContainerConfig) (subId : Str)
       (d : ResourceData),
      env.domainSuffixOk = true → env.decodeErr = none →
      env.existingGet.err = none →
      ResponseWasNotFound env.existingGet.Response = false →
      (∃ idStr,
        (appservice.linuxFunctionAppOnContainerCreate env cfg subId d).result =
          .error (sdk.ResourceRequiresImport
            (strL "azurerm_linux_function_app_on_container") idStr)) ∧
      Act.callCreateOrUpdate ∉
        (appservice.linuxFunctionAppOnContainerCreate env cfg subId d).trace ∧
      (∀ s, Act.setId s ∉
        (appservice.linuxFunctionAppOnContainerCreate env cfg subId d).trace) ∧
      (appservice.linuxFunctionAppOnContainerCreate env cfg subId d).d = d) := by
  refine ⟨?_, ?_, ?_, ?_⟩
  · intro env cfg subId d hnew herr h404
    unfold servicebus.resourceServiceBusSubscriptionCreateUpdate
    simp only [hnew, herr, h404, Bool.false_eq_true, not_false_eq_true, if_true, ite_true]
    refine ⟨⟨_, rfl⟩, ?_, ?_, ?_⟩ <;> simp
  · intro env cfg subId d hnew herr h404
    unfold servicebus.resourceServiceBusNamespaceAuthorizationRuleCreateUpdate
    simp only [hnew, herr, h404, Bool.false_eq_true, not_false_eq_true, if_true, ite_true]
    refine ⟨⟨_, rfl⟩, ?_, ?_, ?_⟩ <;> simp
  · intro env cfg subId d hnew herr h404
    unfold servicebus.resourceServiceBusTopicAuthorizationRuleCreateUpdate
    simp only [hnew, herr, h404, Bool.false_eq_true, not_false_eq_true, if_true, ite_true]
    refine ⟨⟨_, rfl⟩, ?_, ?_, ?_⟩ <;> simp
  · intro env cfg subId d hsuf hdec herr h404
    unfold appservice.linuxFunctionAppOnContainerCreate
    simp only [hsuf, hdec, herr, h404, Bool.false_eq_true, not_false_eq_true,
      if_true, ite_true]
    refine ⟨⟨_, rfl⟩, ?_, ?_, ?_⟩ <;> simp

/-- Witness for C9: creating a new subscription over an existing remote one
yields the import-as-exists error. -/
theorem claim_C9_create_guard_witness :
    ∃ idStr,
      (servicebus.resourceServiceBusSubscriptionCreateUpdate c9SubEnv c9SubCfg
        (strL "sub0") ⟨[], true⟩).result =
        .error (tf.ImportAsExistsError (strL "azurerm_servicebus_subscription") idStr) :=
  (claim_C9_create_guard.1 c9SubEnv c9SubCfg (strL "sub0") ⟨[], true⟩ rfl rfl rfl).1

/-- C8: not-found is handled asymmetrically at the public interface. When
the remote GET errors with a 404 response, each resource Read handler clears
the stored ID and returns nil, while the Kubernetes cluster data-source Read
returns a "was not found" error and stores no ID; on any other GET error the
resource Read returns an error and leaves the stored ID unchanged. -/
theorem claim_C8_not_found_asymmetry :
    (∀ (env : servicebus.SubscriptionReadEnv) (d : ResourceData)
       (id0 : parse.SubscriptionId) (e : Str),
      parse.SubscriptionID d.id = .ok id0 → env.get.err = some e →
      (ResponseWasNotFound env.get.Response = true →
        (servicebus.resourceServiceBusSubscriptionRead env d).result = .ok () ∧
        (servicebus.resourceServiceBusSubscriptionRead env d).d.id = []) ∧
      (ResponseWasNotFound env.get.Response = false →
        (∃ msg, (servicebus.resourceServiceBusSubscriptionRead env d).result =
          .error msg) ∧
        (servicebus.resourceServiceBusSubscriptionRead env d).d.id = d.id)) ∧
    (∀ (env : servicebus.NamespaceAuthRuleReadEnv) (d : ResourceData)
       (id0 : parse.NamespaceAuthorizationRuleId) (e : Str),
      parse.NamespaceAuthorizationRuleID d.id = .ok id0 → env.get.err = some e →
      (ResponseWasNotFound env.get.Response = true →
        (servicebus.resourceServiceBusNamespaceAuthorizationRuleRead env d).result =
          .ok () ∧
        (servicebus.resourceServiceBusNamespaceAuthorizationRuleRead env d).d.id = []) ∧
      (ResponseWasNotFound env.get.Response = false →
        (∃ msg,
          (servicebus.resourceServiceBusNamespaceAuthorizationRuleRead env d).result =
            .error msg) ∧
        (servicebus.resourceServiceBusNamespaceAuthorizationRuleRead env d).d.id = d.id)) ∧
    (∀ (env : servicebus.TopicAuthRuleReadEnv) (d : ResourceData)
       (id0 : parse.TopicAuthorizationRuleId) (e : Str),
      parse.TopicAuthorizationRuleID d.id = .ok id0 → env.get.err = some e →
      (ResponseWasNotFound env.get.Response = true →
        (servicebus.resourceServiceBusTopicAuthorizationRuleRead env d).result = .ok () ∧
        (servicebus.resourceServiceBusTopicAuthorizationRuleRead env d).d.id = []) ∧
      (ResponseWasNotFound env.get.Response = false →
        (∃ msg, (servicebus.resourceServiceBusTopicAuthorizationRuleRead env d).result =
          .error msg) ∧
        (servicebus.resourceServiceBusTopicAuthorizationRuleRead env d).d.id = d.id)) ∧
    (∀ (env : appservice.LinuxFunctionAppReadEnv) (d : ResourceData)
       (id0 : parse.FunctionAppId) (e : Str),
      parse.FunctionAppID d.id = .ok id0 → env.get.err = some e →
      (ResponseWasNotFound env.get.Response = true →
        (appservice.linuxFunctionAppOnContainerRead env d).result = .ok () ∧
        (appservice.linuxFunctionAppOnContainerRead env d).d.id = []) ∧
      (ResponseWasNotFound env.get.Response = false →
        (∃ msg, (appservice.linuxFunctionAppOnContainerRead env d).result = .error msg) ∧
        (appservice.linuxFunctionAppOnContainerRead env d).d.id = d.id)) ∧
    (∀ (env : containers.KubernetesClusterReadEnv)
       (cfg : containers.KubernetesClusterDataSourceConfig) (subId : Str)
       (d : ResourceData) (e : Str),
      env.get.err = some e →
      (ResponseWasNotFound env.get.Response = true →
        (containers.dataSourceKubernetesClusterRead env cfg subId d).result =
          .error ((parse.NewClusterID subId cfg.resource_group_name cfg.name).ID ++
            strL " was not found") ∧
        (∀ s, Act.setId s ∉
          (containers.dataSourceKubernetesClusterRead env cfg subId d).trace) ∧
        (containers.dataSourceKubernetesClusterRead env cfg subId d).d = d) ∧
      (ResponseWasNotFound env.get.Response = false →
        (∃ msg, (containers.dataSourceKubernetesClusterRead env cfg subId d).result =
          .error msg) ∧
        (∀ s, Act.setId s ∉
          (containers.dataSourceKubernetesClusterRead env cfg subId d).trace) ∧
        (containers.dataSourceKubernetesClusterRead env cfg subId d).d = d)) := by
  refine ⟨?_, ?_, ?_, ?_, ?_⟩
  · intro env d id0 e hparse herr
    unfold servicebus.resourceServiceBusSubscriptionRead
    constructor
    · intro h404
      simp [hparse, herr, h404]
    · intro h404
      simp [hparse, herr, h404]
  · intro env d id0 e hparse herr
    unfold servicebus.resourceServiceBusNamespaceAuthorizationRuleRead
    constructor
    · intro h404
      simp [hparse, herr, h404]
    · intro h404
      simp [hparse, herr, h404]
  · intro env d id0 e hparse herr
    unfold servicebus.resourceServiceBusTopicAuthorizationRuleRead
    constructor
    · intro h404
      simp [hparse, herr, h404]
    · intro h404
      simp [hparse, herr, h404]
  · intro env d id0 e hparse herr
    unfold appservice.linuxFunctionAppOnContainerRead
    constructor
    · intro h404
      simp [hparse, herr, h404]
    · intro h404
      simp [hparse, herr, h404]
  · intro env cfg subId d e herr
    unfold containers.dataSourceKubernetesClusterRead
    constructor
    · intro h404
      simp [herr, h404]
    · intro h404
      simp [herr, h404]

/-- Witness for C8: on a 404 GET the subscription Read clears the ID and
returns nil. -/
theorem claim_C8_not_found_asymmetry_witness :
    (servicebus.resourceServiceBusSubscriptionRead c8Env c8D).result = .ok () ∧
    (servicebus.resourceServiceBusSubscriptionRead c8Env c8D).d.id = [] :=
  (claim_C8_not_found_asymmetry.1 c8Env c8D
    (parse.NewSubscriptionID (strL "sub0") (strL "rg1") (strL "ns1") (strL "t1")
      (strL "s1"))
    (strL "entity not found") (by rfl) rfl).1 rfl

/-- C1 counterexample: the subscription Read handler does not pass through
every SDK error — on a GET error with a 404 response it suppresses the error
(returns nil) and takes the alternative action of clearing the stored ID. -/
theorem claim_C1_counterexample :
    c1Env.get.err = some (strL "NotFound: the entity does not exist") ∧
    (servicebus.resourceServiceBusSubscriptionRead c1Env c1D).result = .ok () ∧
    (servicebus.resourceServiceBusSubscriptionRead c1Env c1D).d.id ≠ c1D.id := by
  refine ⟨rfl, by rfl, by decide⟩

namespace servicebus

/-- The subscription Read trace never performs a CreateOrUpdate call. -/
theorem subscriptionRead_trace_no_createOrUpdate
    (env : SubscriptionReadEnv) (d : ResourceData) :
    Act.callCreateOrUpdate ∉ (resourceServiceBusSubscriptionRead env d).trace := by
  unfold resourceServiceBusSubscriptionRead
  repeat' split
  all_goals simp_all

/-- The namespace authorization rule Read trace never performs a
CreateOrUpdate call nor a replication wait. -/
theorem namespaceAuthRuleRead_trace_no_createOrUpdate
    (env : NamespaceAuthRuleReadEnv) (d : ResourceData) :
    Act.callCreateOrUpdate ∉
      (resourceServiceBusNamespaceAuthorizationRuleRead env d).trace ∧
    Act.callWaitReplication ∉
      (resourceServiceBusNamespaceAuthorizationRuleRead env d).trace := by
  unfold resourceServiceBusNamespaceAuthorizationRuleRead
  constructor
  all_goals repeat' split
  all_goals simp_all

end servicebus

set_option maxHeartbeats 2000000 in
/-- C1 as amended: every cloud SDK error is passed through as a wrapped
error — each failing SDK call makes the handler return an error — except
the documented not-found handling: a resource Read whose GET reports 404
clears the stored ID and returns nil; the Kubernetes cluster data-source
maps a 404 GET to its own "was not found" error; and a create handler whose
existence GET errors with a 404 response swallows that error and proceeds to
CreateOrUpdate (the 404 means the resource is free to create). No handler
retries: each
run performs each mutating SDK operation at most once, each Read performs
its GET (and key listing) at most once, and the data source performs its GET
at most once and its access-profile reads at most twice (its two distinct
call sites). -/
theorem claim_C1_error_passthrough :
    (∀ (env : servicebus.SubscriptionCreateEnv) (cfg : servicebus.SubscriptionConfig)
       (subId : Str) (d : ResourceData),
      (d.isNew = true → ∀ e, env.existingGet.err = some e →
        ResponseWasNotFound env.existingGet.Response = false →
        ∃ msg, (servicebus.resourceServiceBusSubscriptionCreateUpdate
          env cfg subId d).result = .error msg) ∧
      (d.isNew = true → ∀ e, env.existingGet.err = some e →
        ResponseWasNotFound env.existingGet.Response = true →
        Act.callCreateOrUpdate ∈ (servicebus.resourceServiceBusSubscriptionCreateUpdate
          env cfg subId d).trace) ∧
      (∀ e, env.createOrUpdate.err = some e →
        ∃ msg, (servicebus.resourceServiceBusSubscriptionCreateUpdate
          env cfg subId d).result = .error msg) ∧
      (servicebus.resourceServiceBusSubscriptionCreateUpdate
        env cfg subId d).trace.count Act.callCreateOrUpdate ≤ 1) ∧
    (∀ (env : servicebus.SubscriptionReadEnv) (d : ResourceData)
       (id0 : parse.SubscriptionId) (e : Str),
      parse.SubscriptionID d.id = .ok id0 → env.get.err = some e →
      (ResponseWasNotFound env.get.Response = false →
        ∃ msg, (servicebus.resourceServiceBusSubscriptionRead env d).result =
          .error msg) ∧
      (ResponseWasNotFound env.get.Response = true →
        (servicebus.resourceServiceBusSubscriptionRead env d).result = .ok () ∧
        (servicebus.resourceServiceBusSubscriptionRead env d).d.id = [])) ∧
    (∀ (env : servicebus.SubscriptionReadEnv) (d : ResourceData),
      (servicebus.resourceServiceBusSubscriptionRead env d).trace.count
        Act.callGet ≤ 1) ∧
    (∀ (env : servicebus.SubscriptionDeleteEnv) (d : ResourceData),
      (∀ e, env.delete.err = some e →
        ∃ msg, (servicebus.resourceServiceBusSubscriptionDelete env d).result =
          .error msg) ∧
      (servicebus.resourceServiceBusSubscriptionDelete env d).trace.count
        Act.callDelete ≤ 1) ∧
    (∀ (env : servicebus.NamespaceAuthRuleCreateEnv)
       (cfg : servicebus.NamespaceAuthRuleConfig) (subId : Str) (d : ResourceData),
      (d.isNew = true → ∀ e, env.existingGet.err = some e →
        ResponseWasNotFound env.existingGet.Response = false →
        ∃ msg, (servicebus.resourceServiceBusNamespaceAuthorizationRuleCreateUpdate
          env cfg subId d).result = .error msg) ∧
      (d.isNew = true → ∀ e, env.existingGet.err = some e →
        ResponseWasNotFound env.existingGet.Response = true →
        Act.callCreateOrUpdate ∈
          (servicebus.resourceServiceBusNamespaceAuthorizationRuleCreateUpdate
            env cfg subId d).trace) ∧
      (∀ e, env.createOrUpdate.err = some e →
        ∃ msg, (servicebus.resourceServiceBusNamespaceAuthorizationRuleCreateUpdate
          env cfg subId d).result = .error msg) ∧
      (∀ e, env.waitReplication = some e →
        ∃ msg, (servicebus.resourceServiceBusNamespaceAuthorizationRuleCreateUpdate
          env cfg subId d).result = .error msg) ∧
      (servicebus.resourceServiceBusNamespaceAuthorizationRuleCreateUpdate
        env cfg subId d).trace.count Act.callCreateOrUpdate ≤ 1 ∧
      (servicebus.resourceServiceBusNamespaceAuthorizationRuleCreateUpdate
        env cfg subId d).trace.count Act.callWaitReplication ≤ 1) ∧
    (∀ (env : servicebus.NamespaceAuthRuleReadEnv) (d : ResourceData)
       (id0 : parse.NamespaceAuthorizationRuleId),
      parse.NamespaceAuthorizationRuleID d.id = .ok id0 →
      (∀ e, env.get.err = some e →
        (ResponseWasNotFound env.get.Response = false →
          ∃ msg, (servicebus.resourceServiceBusNamespaceAuthorizationRuleRead
            env d).result = .error msg) ∧
        (ResponseWasNotFound env.get.Response = true →
          (servicebus.resourceServiceBusNamespaceAuthorizationRuleRead env d).result =
            .ok () ∧
          (servicebus.resourceServiceBusNamespaceAuthorizationRuleRead env d).d.id =
            [])) ∧
      (env.get.err = none → ∀ e, env.listKeys.err = some e →
        ∃ msg, (servicebus.resourceServiceBusNamespaceAuthorizationRuleRead
          env d).result = .error msg)) ∧
    (∀ (env : servicebus.NamespaceAuthRuleReadEnv) (d : ResourceData),
      (servicebus.resourceServiceBusNamespaceAuthorizationRuleRead env d).trace.count
        Act.callGet ≤ 1 ∧
      (servicebus.resourceServiceBusNamespaceAuthorizationRuleRead env d).trace.count
        Act.callListKeys ≤ 1) ∧
    (∀ (env : servicebus.NamespaceAuthRuleDeleteEnv) (d : ResourceData),
      (∀ e, env.delete.err = some e →
        ∃ msg, (servicebus.resourceServiceBusNamespaceAuthorizationRuleDelete
          env d).result = .error msg) ∧
      (∀ e, env.waitReplication = some e →
        ∃ msg, (servicebus.resourceServiceBusNamespaceAuthorizationRuleDelete
          env d).result = .error msg) ∧
      (servicebus.resourceServiceBusNamespaceAuthorizationRuleDelete env d).trace.count
        Act.callDelete ≤ 1 ∧
      (servicebus.resourceServiceBusNamespaceAuthorizationRuleDelete env d).trace.count
        Act.callWaitReplication ≤ 1) ∧
    (∀ (env : containers.KubernetesClusterReadEnv)
       (cfg : containers.KubernetesClusterDataSourceConfig) (subId : Str)
       (d : ResourceData),
      (∀ e, env.get.err = some e →
        ∃ msg, (containers.dataSourceKubernetesClusterRead env cfg subId d).result =
          .error msg) ∧
      (∀ e, env.getAccessProfile.err = some e →
        ∃ msg, (containers.dataSourceKubernetesClusterRead env cfg subId d).result =
          .error msg) ∧
      (∀ (props : containers.ManagedClusterProperties) (e : Str),
        env.get.err = none → env.getAccessProfile.err = none →
        env.get.value = some props → props.hasAadProfile = true →
        props.DisableLocalAccounts ≠ some true →
        env.getAdminAccessProfile.err = some e →
        ∃ msg, (containers.dataSourceKubernetesClusterRead env cfg subId d).result =
          .error msg) ∧
      (containers.dataSourceKubernetesClusterRead env cfg subId d).trace.count
        Act.callGet ≤ 1 ∧
      (containers.dataSourceKubernetesClusterRead env cfg subId d).trace.count
        Act.callGetAccessProfile ≤ 2) := by
  refine ⟨?_, ?_, ?_, ?_, ?_, ?_, ?_, ?_, ?_⟩
  · intro env cfg subId d
    refine ⟨?_, ?_, ?_, ?_⟩
    · intro hnew e herr h404
      unfold servicebus.resourceServiceBusSubscriptionCreateUpdate
      repeat' split
      all_goals simp_all
    · intro hnew e herr h404
      unfold servicebus.resourceServiceBusSubscriptionCreateUpdate
      repeat' split
      all_goals simp_all
    · intro e herr
      unfold servicebus.resourceServiceBusSubscriptionCreateUpdate
      repeat' split
      all_goals simp_all
    · unfold servicebus.resourceServiceBusSubscriptionCreateUpdate
      repeat' split
      all_goals simp_all [List.count_append,
        List.count_eq_zero_of_not_mem
          (servicebus.subscriptionRead_trace_no_createOrUpdate _ _)]
  · intro env d id0 e hparse herr
    constructor
    · intro h404
      unfold servicebus.resourceServiceBusSubscriptionRead
      simp [hparse, herr, h404]
    · intro h404
      unfold servicebus.resourceServiceBusSubscriptionRead
      simp [hparse, herr, h404]
  · intro env d
    unfold servicebus.resourceServiceBusSubscriptionRead
    repeat' split
    all_goals simp_all [List.count_append, List.count_cons]
  · intro env d
    constructor
    · intro e herr
      unfold servicebus.resourceServiceBusSubscriptionDelete
      repeat' split
      all_goals simp_all
    · unfold servicebus.resourceServiceBusSubscriptionDelete
      repeat' split
      all_goals simp_all
  · intro env cfg subId d
    refine ⟨?_, ?_, ?_, ?_, ?_, ?_⟩
    · intro hnew e herr h404
      unfold servicebus.resourceServiceBusNamespaceAuthorizationRuleCreateUpdate
      repeat' split
      all_goals simp_all
    · intro hnew e herr h404
      unfold servicebus.resourceServiceBusNamespaceAuthorizationRuleCreateUpdate
      repeat' split
      all_goals simp_all
    · intro e herr
      unfold servicebus.resourceServiceBusNamespaceAuthorizationRuleCreateUpdate
      repeat' split
      all_goals simp_all
    · intro e hwait
      unfold servicebus.resourceServiceBusNamespaceAuthorizationRuleCreateUpdate
      repeat' split
      all_goals simp_all
    · unfold servicebus.resourceServiceBusNamespaceAuthorizationRuleCreateUpdate
      repeat' split
      all_goals simp_all [List.count_append,
        List.count_eq_zero_of_not_mem
          ((servicebus.namespaceAuthRuleRead_trace_no_createOrUpdate _ _).1)]
    · unfold servicebus.resourceServiceBusNamespaceAuthorizationRuleCreateUpdate
      repeat' split
      all_goals simp_all [List.count_append,
        List.count_eq_zero_of_not_mem
          ((servicebus.namespaceAuthRuleRead_trace_no_createOrUpdate _ _).2)]
  · intro env d id0 hparse
    constructor
    · intro e herr
      constructor
      · intro h404
        unfold servicebus.resourceServiceBusNamespaceAuthorizationRuleRead
        simp [hparse, herr, h404]
      · intro h404
        unfold servicebus.resourceServiceBusNamespaceAuthorizationRuleRead
        simp [hparse, herr, h404]
    · intro hget e hkeys
      unfold servicebus.resourceServiceBusNamespaceAuthorizationRuleRead
      simp [hparse, hget, hkeys]
  · intro env d
    constructor
    all_goals unfold servicebus.resourceServiceBusNamespaceAuthorizationRuleRead
    all_goals repeat' split
    all_goals simp_all [List.count_append, List.count_cons]
  · intro env d
    refine ⟨?_, ?_, ?_, ?_⟩
    · intro e herr
      unfold servicebus.resourceServiceBusNamespaceAuthorizationRuleDelete
      repeat' split
      all_goals simp_all
    · intro e hwait
      unfold servicebus.resourceServiceBusNamespaceAuthorizationRuleDelete
      repeat' split
      all_goals simp_all
    · unfold servicebus.resourceServiceBusNamespaceAuthorizationRuleDelete
      repeat' split
      all_goals simp_all
    · unfold servicebus.resourceServiceBusNamespaceAuthorizationRuleDelete
      repeat' split
      all_goals simp_all
  · intro env cfg subId d
    refine ⟨?_, ?_, ?_, ?_, ?_⟩
    · intro e herr
      unfold containers.dataSourceKubernetesClusterRead
      repeat' split
      all_goals simp_all
    · intro e hprof
      unfold containers.dataSourceKubernetesClusterRead
      repeat' split
      all_goals simp_all
    · intro props e hget hprof hval haad hdla hadmin
      unfold containers.dataSourceKubernetesClusterRead
      repeat' split
      all_goals simp_all
    · unfold containers.dataSourceKubernetesClusterRead
      repeat' split
      all_goals simp_all [List.count_append, List.count_cons]
    · unfold containers.dataSourceKubernetesClusterRead
      repeat' split
      all_goals simp_all [List.count_append, List.count_cons]

/-- Witness for the amended C1: a failing Delete is passed through as a
wrapped error. -/
theorem claim_C1_error_passthrough_witness :
    ∃ msg, (servicebus.resourceServiceBusSubscriptionDelete c1DelEnv c1D).result =
      .error msg :=
  (claim_C1_error_passthrough.2.2.2.1 c1DelEnv c1D).1 (strL "InternalServerError") rfl
